import Mathlib

/-!
# Verification of the KeePass MCP server core against its specification

Shallow embedding of the security manager (`security.py`), the backup
manager (`backup_manager.py`), the store handler (`keepass_handler.py`)
and the search engine (`search_engine.py`).  External collaborators
(SHA-256, gzip, the pykeepass codec, the regex module) are modelled as
function parameters, since the repository only consumes them through an
interface.  Byte strings are `List Nat`, wall-clock times are `Nat`
(seconds), floating-point scores are `ℚ`.
-/

namespace KeePassMCP

/-- Exception taxonomy of `exceptions.py`.  Only the classes the verified
    components raise are modelled.  `databaseError` and `backupError`
    carry their message because the code re-wraps messages; the class of a
    raised object is the constructor. -/
inductive KError where
  | authenticationError (msg : String)
  | securityError (msg : String)
  | sessionExpiredError
  | databaseLockedError
  | databaseError (msg : String)
  | backupError (msg : String)
  | validationError (msg : String)
deriving Repr, DecidableEq

/-! ## Association-list helpers (Python `dict` semantics) -/

/-- `dict[key]` lookup. -/
def alookup (k : String) : List (String × α) → Option α
  | [] => none
  | (k₁, v) :: rest => if k₁ == k then some v else alookup k rest

/-- `del dict[key]`. -/
def aerase (k : String) (l : List (String × α)) : List (String × α) :=
  l.filter (fun p => !(p.1 == k))

/-- `dict[key] = value` (replace-or-insert; position is irrelevant to the
    verified properties). -/
def aset (k : String) (v : α) (l : List (String × α)) : List (String × α) :=
  aerase k l ++ [(k, v)]

/-! ## Security manager (`security.py`) -/

/-- One session record of `SecureSession.sessions` (`security.py:41-46`). -/
structure SessionData where
  userId : String
  createdAt : Nat
  lastAccess : Nat
  accessCount : Nat
deriving Repr, DecidableEq

/-- Configuration fields consumed by `SecurityManager` (`config.py`).
    `maxRetries` is `config.max_retries` (pydantic default 3, any int
    accepted); `attemptWindow` is hard-coded to 300 in
    `SecurityManager.__init__`. -/
structure SecConfig where
  sessionTimeout : Nat
  autoLockTimeout : Nat
  maxRetries : Nat
deriving Repr, DecidableEq

/-- `SecurityManager.attempt_window = 300  # 5 minutes`. -/
def attemptWindow : Nat := 300

/-- Mutable state of a `SecurityManager` together with its owned
    `SecureSession`, rate-limit table and `SecureMemory`. -/
structure SecState where
  sessions : List (String × SessionData)
  authAttempts : List (String × List Nat)
  secureMemory : List (String × String)
  isLocked : Bool
  lastActivity : Nat
deriving Repr, DecidableEq

/-- `SecureSession.create_session`: the fresh random token is passed in
    as `token` (the value of `secrets.token_urlsafe(32)`). -/
def createSession (token : String) (now : Nat) (userId : String)
    (sessions : List (String × SessionData)) : List (String × SessionData) :=
  aset token ⟨userId, now, now, 0⟩ sessions

/-- `SecureSession.validate_session`: absent token is plainly invalid;
    a token older than the timeout is evicted and `SessionExpiredError`
    is raised; otherwise `last_access`/`access_count` are bumped. -/
def sessionValidate (timeout : Nat) (now : Nat) (token : String)
    (sessions : List (String × SessionData)) :
    Except KError Bool × List (String × SessionData) :=
  match alookup token sessions with
  | none => (.ok false, sessions)
  | some sd =>
    if timeout < now - sd.lastAccess then
      (.error .sessionExpiredError, aerase token sessions)
    else
      (.ok true, aset token
        { sd with lastAccess := now, accessCount := sd.accessCount + 1 } sessions)

/-- `SecureMemory.retrieve`. -/
def smemRetrieve (k : String) (m : List (String × String)) : Option String :=
  alookup k m

/-- `SecureMemory.delete` (the random overwrite before `del` has no
    observable effect on the mapping). -/
def smemDelete (k : String) (m : List (String × String)) : List (String × String) :=
  aerase k m

/-- `SecureMemory.clear_all`: delete every key of a snapshot of the key
    list. -/
def smemClearAll (m : List (String × String)) : List (String × String) :=
  (m.map Prod.fst).foldl (fun acc k => smemDelete k acc) m

/-- `SecurityManager._check_rate_limit`: prunes attempts older than the
    window, then admits iff fewer than `max_attempts` remain.  A user
    with no recorded list is admitted outright. -/
def checkRateLimit (maxAttempts : Nat) (now : Nat) (userId : String)
    (attempts : List (String × List Nat)) : Bool × List (String × List Nat) :=
  match alookup userId attempts with
  | none => (true, attempts)
  | some l =>
    let pruned := l.filter (fun t => now - t < attemptWindow)
    (decide (pruned.length < maxAttempts), aset userId pruned attempts)

/-- `SecurityManager._record_auth_attempt`. -/
def recordAuthAttempt (now : Nat) (userId : String)
    (attempts : List (String × List Nat)) : List (String × List Nat) :=
  aset userId (((alookup userId attempts).getD []) ++ [now]) attempts

/-- `SecurityManager.authenticate_user`: rate-limit admission first
    (raising without recording), then the attempt is recorded, then the
    length-≥-8 credential check; on success a session is created and the
    user's attempt history is dropped.  The keychain write and audit
    logging are external best-effort side channels with no modelled
    state. -/
def authenticateUser (cfg : SecConfig) (token : String) (now : Nat)
    (userId password : String) (s : SecState) : Except KError String × SecState :=
  match checkRateLimit cfg.maxRetries now userId s.authAttempts with
  | (admitted, att₁) =>
    if !admitted then
      (.error (.authenticationError
        "Too many authentication attempts. Please try again later."),
       { s with authAttempts := att₁ })
    else
      let att₂ := recordAuthAttempt now userId att₁
      if password.length < 8 then
        (.error (.authenticationError "Authentication failed"),
         { s with authAttempts := att₂ })
      else
        (.ok token,
         { s with sessions := createSession token now userId s.sessions,
                  authAttempts := aerase userId att₂ })

/-- `SecurityManager.validate_session`: `SecurityError` while the system
    is locked; otherwise delegates to the session registry and refreshes
    the idle-activity timestamp on success. -/
def validateSession (cfg : SecConfig) (now : Nat) (token : String)
    (s : SecState) : Except KError Bool × SecState :=
  if s.isLocked then
    (.error (.securityError "System is locked"), s)
  else
    match sessionValidate cfg.sessionTimeout now token s.sessions with
    | (.ok b, sess) =>
      if b then (.ok true, { s with sessions := sess, lastActivity := now })
      else (.ok false, { s with sessions := sess })
    | (.error e, sess) => (.error e, { s with sessions := sess })

/-- `SecurityManager.lock_system`: set the lock flag, wipe secure memory,
    destroy every session. -/
def lockSystem (s : SecState) : SecState :=
  { s with isLocked := true,
           secureMemory := smemClearAll s.secureMemory,
           sessions := (s.sessions.map Prod.fst).foldl
             (fun acc tok => aerase tok acc) s.sessions }

/-- `SecurityManager.unlock_system`: `SecurityError` if not locked;
    re-runs `authenticate_user` (exceptions propagate) and clears the lock
    flag only after a token was issued. -/
def unlockSystem (cfg : SecConfig) (token : String) (now : Nat)
    (userId password : String) (s : SecState) : Except KError String × SecState :=
  if !s.isLocked then
    (.error (.securityError "System is not locked"), s)
  else
    match authenticateUser cfg token now userId password s with
    | (.error e, s₁) => (.error e, s₁)
    | (.ok tok, s₁) => (.ok tok, { s₁ with isLocked := false, lastActivity := now })

/-- `SecurityManager.check_auto_lock`. -/
def checkAutoLock (cfg : SecConfig) (now : Nat) (s : SecState) : SecState :=
  if s.isLocked then s
  else if cfg.autoLockTimeout < now - s.lastActivity then lockSystem s
  else s

/-- The attempt timestamps of a user that survive the sliding window at
    time `now` (`_check_rate_limit`'s pruning). -/
def prunedAttempts (now : Nat) (userId : String) (s : SecState) : List Nat :=
  ((alookup userId s.authAttempts).getD []).filter
    (fun t => now - t < attemptWindow)

/-! ## Backup manager (`backup_manager.py`)

The backup directory is a list of artifacts; the live store file is an
optional byte string.  SHA-256 is the parameter `hash`, gzip is the
parameter pair `comp`/`decomp` (`decomp` returns `none` on a gzip error),
filesystem unlink outcomes are the parameter `deleteOk`, and the `fault`
parameter of `restore_backup` is the content an unfaithful restore write
leaves in the live file (`none` = faithful copy). -/

/-- The sidecar metadata record written by `create_backup`
    (`backup_manager.py:80-90`).  The checksum is the model hash value
    (always truthy, as a hex string is in Python). -/
structure BackupMeta where
  filename : String
  createdAt : Nat
  reason : String
  originalSize : Nat
  backupSize : Nat
  compressed : Bool
  checksum : Nat
  verified : Bool
deriving Repr, DecidableEq

/-- One backup file in the backup directory, together with its creation
    time (the file mtime `list_backups` reads) and its optional metadata
    sidecar. -/
structure Artifact where
  name : String
  content : List Nat
  ctime : Nat
  meta : Option BackupMeta
deriving Repr, DecidableEq

/-- The filesystem state `restore_backup` touches: the live store file
    and the backup directory. -/
structure BStore where
  live : Option (List Nat)
  dir : List Artifact
deriving Repr, DecidableEq

/-- Look a backup file up by name. -/
def findArt (name : String) (dir : List Artifact) : Option Artifact :=
  dir.find? (fun a => a.name == name)

/-- Unlink a backup file (and thereby its attached metadata). -/
def removeArt (name : String) (dir : List Artifact) : List Artifact :=
  dir.filter (fun a => !(a.name == name))

/-- Write a backup file, overwriting a file of the same name. -/
def putArt (a : Artifact) (dir : List Artifact) : List Artifact :=
  removeArt a.name dir ++ [a]

/-- `backup_filename.endswith(".gz")`. -/
def gzName (name : String) : Bool :=
  name.toList.drop (name.toList.length - 3) == ".gz".toList

/-- `_verify_backup`: a compressed artifact is decompressed (a gzip error
    yields `False` through the except clause) and its checksum compared
    when one is expected; an uncompressed artifact is hashed directly, or
    merely required to be non-empty when no checksum is expected. -/
def verifyBackup (hash : List Nat → Nat) (decomp : List Nat → Option (List Nat))
    (content : List Nat) (expected : Option Nat) (isCompressed : Bool) : Bool :=
  if isCompressed then
    match decomp content with
    | none => false
    | some data =>
      match expected with
      | some c => hash data == c
      | none => true
  else
    match expected with
    | some c => hash content == c
    | none => decide (0 < content.length)

/-- Backup filename `"<stem>_<timestamp>_<reason>.kdbx[.gz]"`; the model
    renders the timestamp as the decimal time value. -/
def mkBackupName (stem : String) (t : Nat) (reason : String)
    (compress : Bool) : String :=
  stem ++ "_" ++ toString t ++ "_" ++ reason ++ ".kdbx" ++
    (if compress then ".gz" else "")

/-- Stable insertion step of the newest-first ordering
    (`list_backups`'s `sort(key=created_at, reverse=True)`, which keeps
    the original order of ties). -/
def insertByCtime (a : Artifact) : List Artifact → List Artifact
  | [] => [a]
  | b :: bs => if b.ctime ≤ a.ctime then a :: b :: bs else b :: insertByCtime a bs

/-- `list_backups(include_metadata=False, sort_by="date")`: every backup
    file, newest first. -/
def listBackupsByDate (dir : List Artifact) : List Artifact :=
  dir.foldr insertByCtime []

/-- `delete_backup`: `BackupError` if the file is absent or the unlink
    fails; on success the artifact and its metadata sidecar are gone. -/
def deleteBackup (deleteOk : String → Bool) (name : String)
    (dir : List Artifact) : Except KError Bool × List Artifact :=
  match findArt name dir with
  | none =>
    (.error (.backupError ("Failed to delete backup: Backup file not found: "
      ++ name)), dir)
  | some _ =>
    if deleteOk name then (.ok true, removeArt name dir)
    else (.error (.backupError "Failed to delete backup: unlink failed"), dir)

/-- Loop body of `cleanup_old_backups`: a failed deletion is logged and
    skipped, a successful one is appended to the returned list. -/
def cleanupStep (deleteOk : String → Bool)
    (acc : List String × List Artifact) (b : Artifact) :
    List String × List Artifact :=
  match deleteBackup deleteOk b.name acc.2 with
  | (.ok _, d) => (acc.1 ++ [b.name], d)
  | (.error _, d) => (acc.1, d)

/-- `cleanup_old_backups`: the listing beyond the newest `max_backups`
    (i.e. the oldest ones) is deleted; only the successes are
    returned. -/
def cleanupOldBackups (deleteOk : String → Bool) (maxB : Nat)
    (dir : List Artifact) : List String × List Artifact :=
  ((listBackupsByDate dir).drop maxB).foldl (cleanupStep deleteOk) ([], dir)

/-- `create_backup(reason, compress, verify)`: `BackupError` when the
    source file is absent; the checksum is computed from the source
    before the copy; a failed verification unlinks the fresh artifact and
    raises before the metadata sidecar is written; otherwise the sidecar
    is attached and retention cleanup runs. -/
def createBackup (hash : List Nat → Nat) (comp : List Nat → List Nat)
    (decomp : List Nat → Option (List Nat)) (deleteOk : String → Bool)
    (maxB : Nat) (stem : String) (t : Nat) (reason : String)
    (compress verify : Bool) (live : Option (List Nat))
    (dir : List Artifact) : Except KError BackupMeta × List Artifact :=
  match live with
  | none =>
    (.error (.backupError "Failed to create backup: Database file not found"),
     dir)
  | some src =>
    let name := mkBackupName stem t reason compress
    let checksum := hash src
    let written := if compress then comp src else src
    let dir₁ := putArt ⟨name, written, t, none⟩ dir
    if verify && !(verifyBackup hash decomp written (some checksum) compress) then
      (.error (.backupError "Failed to create backup: Backup verification failed"),
       removeArt name dir₁)
    else
      let meta : BackupMeta :=
        ⟨name, t, reason, src.length, written.length, compress, checksum, verify⟩
      (.ok meta,
       (cleanupOldBackups deleteOk maxB (putArt ⟨name, written, t, some meta⟩ dir₁)).2)

/-- The inner try-block of `restore_backup` (lines 157-195).  The aside
    copy (`.kdbx.original`) of the live file is `s.live` itself; on any
    failure it is copied back when it exists; the metadata loaded at
    entry drives the post-restore verification. -/
def restoreCore (hash : List Nat → Nat) (decomp : List Nat → Option (List Nat))
    (fault : Option (List Nat)) (name : String) (vbr : Bool)
    (meta : Option BackupMeta) (s : BStore) : Except KError Unit × BStore :=
  match findArt name s.dir with
  | none => (.error (.backupError "Failed to restore backup: Restore failed"), s)
  | some art =>
    match (if gzName name then decomp art.content else some art.content) with
    | none =>
      (.error (.backupError "Failed to restore backup: Restore failed"), s)
    | some bytes =>
      let written := fault.getD bytes
      if vbr then
        match meta with
        | some m =>
          if hash written == m.checksum then (.ok (), { s with live := some written })
          else
            match s.live with
            | some orig =>
              (.error (.backupError
                "Failed to restore backup: Restore failed: Restored database checksum mismatch"),
               { s with live := some orig })
            | none =>
              (.error (.backupError
                "Failed to restore backup: Restore failed: Restored database checksum mismatch"),
               { s with live := some written })
        | none => (.ok (), { s with live := some written })
      else (.ok (), { s with live := some written })

/-- `restore_backup(filename, verify_before_restore,
    create_pre_restore_backup)`: absence raises; pre-verification aborts
    before any state is touched; the optional pre-restore backup runs
    `create_backup` (whose failure aborts the restore); then the inner
    try-block restores with rollback. -/
def restoreBackup (hash : List Nat → Nat) (comp : List Nat → List Nat)
    (decomp : List Nat → Option (List Nat)) (deleteOk : String → Bool)
    (maxB : Nat) (stem : String) (t : Nat) (fault : Option (List Nat))
    (name : String) (vbr cprb : Bool) (s : BStore) :
    Except KError Unit × BStore :=
  match findArt name s.dir with
  | none =>
    (.error (.backupError ("Failed to restore backup: Backup file not found: "
      ++ name)), s)
  | some art =>
    if vbr && !(verifyBackup hash decomp art.content
        (art.meta.map (fun m => m.checksum)) (gzName name)) then
      (.error (.backupError
        "Failed to restore backup: Backup verification failed before restore"), s)
    else if cprb && s.live.isSome then
      match createBackup hash comp decomp deleteOk maxB stem t "pre_restore"
          true true s.live s.dir with
      | (.error _, dir₁) =>
        (.error (.backupError "Failed to restore backup: pre-restore backup failed"),
         { s with dir := dir₁ })
      | (.ok _, dir₁) =>
        restoreCore hash decomp fault name vbr art.meta { s with dir := dir₁ }
    else restoreCore hash decomp fault name vbr art.meta s

/-- One artifact of the sequential-creation scenario of the retention
    property: the backup created at time `i` from source `src`. -/
def backupArtifact (hash : List Nat → Nat) (comp : List Nat → List Nat)
    (stem reason : String) (compress verify : Bool) (src : List Nat)
    (i : Nat) : Artifact :=
  ⟨mkBackupName stem i reason compress,
   if compress then comp src else src, i,
   some ⟨mkBackupName stem i reason compress, i, reason, src.length,
         (if compress then comp src else src).length, compress, hash src,
         verify⟩⟩

/-- `n` successive `create_backup` calls at times `0, 1, …, n-1` on the
    same source content, starting from an empty backup directory, with
    every unlink succeeding. -/
def createSeq (hash : List Nat → Nat) (comp : List Nat → List Nat)
    (decomp : List Nat → Option (List Nat)) (maxB : Nat)
    (stem reason : String) (compress verify : Bool) (src : List Nat) :
    Nat → List Artifact
  | 0 => []
  | n + 1 =>
    (createBackup hash comp decomp (fun _ => true) maxB stem n reason
      compress verify (some src)
      (createSeq hash comp decomp maxB stem reason compress verify src n)).2

/-- A concrete one-artifact store for witnesses: live file `[5]`, one
    uncompressed verified backup of content `[1, 2]` whose recorded
    checksum 3 is the byte sum. -/
def sampleStore : BStore :=
  ⟨some [5],
   [⟨"b.kdbx", [1, 2], 0, some ⟨"b.kdbx", 0, "m", 2, 2, false, 3, true⟩⟩]⟩

/-- The same store with the backup's bytes tampered to `[9, 9]` (byte sum
    18 no longer matches the recorded checksum 3). -/
def sampleStoreTampered : BStore :=
  ⟨some [5],
   [⟨"b.kdbx", [9, 9], 0, some ⟨"b.kdbx", 0, "m", 2, 2, false, 3, true⟩⟩]⟩

/-! ## Store handler (`keepass_handler.py`)

The pykeepass codec is an external collaborator (spec §6), modelled as a
bundle of total functions over an abstract handle type `DB`; entry and
group references are `Nat`, the validated payloads are the abstract
types `ED`/`GD`. -/

/-- External pykeepass operations the handler delegates to.  `addEntry`
    covers `db.add_entry` together with the subsequent
    `set_custom_property`/`expires` assignments of `create_entry`, and
    `updateEntry` covers `update_entry`'s field assignments; `serialize`
    is what `handle.save()` writes to disk. -/
structure Codec (DB ED GD : Type) where
  addEntry : DB → Nat → ED → DB × Nat
  updateEntry : DB → Nat → ED → DB
  deleteEntryPerm : DB → Nat → DB
  recycleBin : DB → Nat
  moveEntry : DB → Nat → Nat → DB
  addGroup : DB → Nat → GD → DB × Nat
  updateGroup : DB → Nat → GD → DB
  deleteGroup : DB → Nat → DB
  moveGroup : DB → Nat → Nat → DB
  serialize : DB → List Nat

/-- The external-collaborator parameters of the backup manager, bundled
    for the handler's signatures. -/
structure BackupEnv where
  hash : List Nat → Nat
  comp : List Nat → List Nat
  decomp : List Nat → Option (List Nat)
  deleteOk : String → Bool
  maxB : Nat
  stem : String

/-- State of a `KeePassHandler`: the optional open handle, the
    `is_locked` flag, `last_save_time`, and the on-disk state (live store
    file and backup directory). -/
structure HState (DB : Type) where
  database : Option DB
  isLocked : Bool
  lastSaveTime : Option Nat
  store : BStore

/-- `save_database(reason)`: the locked check sits inside the try-block,
    so the `DatabaseLockedError` it raises is caught by the blanket
    `except Exception` and re-raised as `DatabaseError` wrapping its
    message — the caller receives a `DatabaseError`.  When unlocked,
    reasons `manual`/`pre_operation` first attempt a backup whose failure
    is swallowed, then the handle is serialized to the live file. -/
def saveDatabase (codec : Codec DB ED GD) (env : BackupEnv) (now t : Nat)
    (reason : String) (s : HState DB) : Except KError Unit × HState DB :=
  if s.isLocked || s.database.isNone then
    (.error (.databaseError "Failed to save database: Database is locked"), s)
  else
    match s.database with
    | none =>
      (.error (.databaseError "Failed to save database: Database is locked"), s)
    | some db =>
      let dir₁ :=
        if reason == "pre_operation" || reason == "manual" then
          (createBackup env.hash env.comp env.decomp env.deleteOk env.maxB
            env.stem t ("pre_save_" ++ reason) true true s.store.live
            s.store.dir).2
        else s.store.dir
      (.ok (),
       { s with store := ⟨some (codec.serialize db), dir₁⟩,
                lastSaveTime := some now })

/-- `create_entry`: `DatabaseLockedError` before the try-block when
    locked; otherwise delegates to the codec and auto-saves. -/
def createEntry (codec : Codec DB ED GD) (env : BackupEnv) (autoSave : Bool)
    (now t : Nat) (g : Nat) (ed : ED) (s : HState DB) :
    Except KError Nat × HState DB :=
  if s.isLocked || s.database.isNone then (.error .databaseLockedError, s)
  else
    match s.database with
    | none => (.error .databaseLockedError, s)
    | some db =>
      let r := codec.addEntry db g ed
      let s₁ := { s with database := some r.1 }
      if autoSave then
        match saveDatabase codec env now t "auto_save_after_create" s₁ with
        | (.ok _, s₂) => (.ok r.2, s₂)
        | (.error _, s₂) =>
          (.error (.databaseError "Failed to create entry"), s₂)
      else (.ok r.2, s₁)

/-- `update_entry`. -/
def updateEntry (codec : Codec DB ED GD) (env : BackupEnv) (autoSave : Bool)
    (now t : Nat) (eid : Nat) (ed : ED) (s : HState DB) :
    Except KError Unit × HState DB :=
  if s.isLocked || s.database.isNone then (.error .databaseLockedError, s)
  else
    match s.database with
    | none => (.error .databaseLockedError, s)
    | some db =>
      let s₁ := { s with database := some (codec.updateEntry db eid ed) }
      if autoSave then
        match saveDatabase codec env now t "auto_save_after_update" s₁ with
        | (.ok _, s₂) => (.ok (), s₂)
        | (.error _, s₂) =>
          (.error (.databaseError "Failed to update entry"), s₂)
      else (.ok (), s₁)

/-- `delete_entry`: permanent deletion or a move to the recycle bin. -/
def deleteEntry (codec : Codec DB ED GD) (env : BackupEnv) (autoSave : Bool)
    (now t : Nat) (eid : Nat) (permanent : Bool) (s : HState DB) :
    Except KError Unit × HState DB :=
  if s.isLocked || s.database.isNone then (.error .databaseLockedError, s)
  else
    match s.database with
    | none => (.error .databaseLockedError, s)
    | some db =>
      let db₁ := if permanent then codec.deleteEntryPerm db eid
                 else codec.moveEntry db eid (codec.recycleBin db)
      let s₁ := { s with database := some db₁ }
      if autoSave then
        match saveDatabase codec env now t "auto_save_after_delete" s₁ with
        | (.ok _, s₂) => (.ok (), s₂)
        | (.error _, s₂) =>
          (.error (.databaseError "Failed to delete entry"), s₂)
      else (.ok (), s₁)

/-- `move_entry`. -/
def moveEntry (codec : Codec DB ED GD) (env : BackupEnv) (autoSave : Bool)
    (now t : Nat) (eid gid : Nat) (s : HState DB) :
    Except KError Unit × HState DB :=
  if s.isLocked || s.database.isNone then (.error .databaseLockedError, s)
  else
    match s.database with
    | none => (.error .databaseLockedError, s)
    | some db =>
      let s₁ := { s with database := some (codec.moveEntry db eid gid) }
      if autoSave then
        match saveDatabase codec env now t "auto_save_after_move" s₁ with
        | (.ok _, s₂) => (.ok (), s₂)
        | (.error _, s₂) =>
          (.error (.databaseError "Failed to move entry"), s₂)
      else (.ok (), s₁)

/-- `create_group`. -/
def createGroup (codec : Codec DB ED GD) (env : BackupEnv) (autoSave : Bool)
    (now t : Nat) (parent : Nat) (gd : GD) (s : HState DB) :
    Except KError Nat × HState DB :=
  if s.isLocked || s.database.isNone then (.error .databaseLockedError, s)
  else
    match s.database with
    | none => (.error .databaseLockedError, s)
    | some db =>
      let r := codec.addGroup db parent gd
      let s₁ := { s with database := some r.1 }
      if autoSave then
        match saveDatabase codec env now t "auto_save_after_group_create" s₁ with
        | (.ok _, s₂) => (.ok r.2, s₂)
        | (.error _, s₂) =>
          (.error (.databaseError "Failed to create group"), s₂)
      else (.ok r.2, s₁)

/-- `update_group`. -/
def updateGroup (codec : Codec DB ED GD) (env : BackupEnv) (autoSave : Bool)
    (now t : Nat) (gid : Nat) (gd : GD) (s : HState DB) :
    Except KError Unit × HState DB :=
  if s.isLocked || s.database.isNone then (.error .databaseLockedError, s)
  else
    match s.database with
    | none => (.error .databaseLockedError, s)
    | some db =>
      let s₁ := { s with database := some (codec.updateGroup db gid gd) }
      if autoSave then
        match saveDatabase codec env now t "auto_save_after_group_update" s₁ with
        | (.ok _, s₂) => (.ok (), s₂)
        | (.error _, s₂) =>
          (.error (.databaseError "Failed to update group"), s₂)
      else (.ok (), s₁)

/-- `delete_group`. -/
def deleteGroup (codec : Codec DB ED GD) (env : BackupEnv) (autoSave : Bool)
    (now t : Nat) (gid : Nat) (s : HState DB) :
    Except KError Unit × HState DB :=
  if s.isLocked || s.database.isNone then (.error .databaseLockedError, s)
  else
    match s.database with
    | none => (.error .databaseLockedError, s)
    | some db =>
      let s₁ := { s with database := some (codec.deleteGroup db gid) }
      if autoSave then
        match saveDatabase codec env now t "auto_save_after_group_delete" s₁ with
        | (.ok _, s₂) => (.ok (), s₂)
        | (.error _, s₂) =>
          (.error (.databaseError "Failed to delete group"), s₂)
      else (.ok (), s₁)

/-- `move_group`. -/
def moveGroup (codec : Codec DB ED GD) (env : BackupEnv) (autoSave : Bool)
    (now t : Nat) (gid pid : Nat) (s : HState DB) :
    Except KError Unit × HState DB :=
  if s.isLocked || s.database.isNone then (.error .databaseLockedError, s)
  else
    match s.database with
    | none => (.error .databaseLockedError, s)
    | some db =>
      let s₁ := { s with database := some (codec.moveGroup db gid pid) }
      if autoSave then
        match saveDatabase codec env now t "auto_save_after_group_move" s₁ with
        | (.ok _, s₂) => (.ok (), s₂)
        | (.error _, s₂) =>
          (.error (.databaseError "Failed to move group"), s₂)
      else (.ok (), s₁)

/-! ## Search engine (`search_engine.py`)

Python strings are embedded as character lists; `str.lower()` is a
character-wise `toLower` (the entries at stake are ASCII), float scores
are exact rationals.  The entry snapshots produced by the entry manager
are fixed-schema dictionaries; the model restricts them to the fields
the search engine reads, with `tags` carrying both its stringified form
(`str(entry[field])`, as `_calculate_relevance` sees it) and its list
form (as the tag filter sees it). -/

/-- A Python string. -/
abbrev Str := List Char

/-- `str.lower()`. -/
def lowerS (s : Str) : Str := s.map Char.toLower

/-- Python whitespace for `str.strip()`. -/
def isSpaceChar (c : Char) : Bool :=
  c == ' ' || c == '\t' || c == '\n' || c == '\r'

/-- `str.strip()`. -/
def stripS (s : Str) : Str :=
  ((s.dropWhile isSpaceChar).reverse.dropWhile isSpaceChar).reverse

/-- Whether the first string is a prefix of the second. -/
def isPrefixL : Str → Str → Bool
  | [], _ => true
  | _ :: _, [] => false
  | a :: as, b :: bs => a == b && isPrefixL as bs

/-- Python's `needle in hay` substring test. -/
def containsSub (needle : Str) : Str → Bool
  | [] => isPrefixL needle []
  | c :: rest => isPrefixL needle (c :: rest) || containsSub needle rest

/-- `" " + s + " "`, the whole-word wrapper of `_calculate_relevance`. -/
def wordWrap (s : Str) : Str := ' ' :: (s ++ [' '])

/-- A decrypted entry snapshot as the search engine consumes it. -/
structure SEntry where
  title : Option Str
  username : Option Str
  url : Option Str
  notes : Option Str
  tags : Option Str
  group : Str
  dateCreated : Option Int
  dateModified : Option Int
  attachments : Bool
  passwordChanged : Option Int
  tagList : List Str
deriving Repr, DecidableEq

/-- `field in entry` / `str(entry[field])` for the searchable fields. -/
def getField (e : SEntry) : String → Option Str
  | "title" => e.title
  | "username" => e.username
  | "url" => e.url
  | "notes" => e.notes
  | "tags" => e.tags
  | _ => none

/-- `field_weights.get(field, 1.0)` of `_calculate_relevance`. -/
def fieldWeight (f : String) : ℚ :=
  if f == "title" then 3
  else if f == "username" then 2
  else if f == "url" then 5/2
  else if f == "notes" then 1
  else if f == "tags" then 2
  else 1

/-- `_calculate_relevance`: per searched field present in the entry, a
    score accumulated exactly as the code does (regex via the external
    `regexSearch`, `none` modelling `re.error` with its substring
    fallback), capped at 10.0. -/
def calculateRelevance (regexSearch : Str → Str → Option Bool) (q : Str)
    (fields : List String) (cs exact rgx : Bool) (e : SEntry) : ℚ :=
  if q.isEmpty then 1
  else
    let sq := if cs then q else lowerS q
    let total := fields.foldl (fun acc f =>
      match getField e f with
      | none => acc
      | some v₀ =>
        let v := if cs then v₀ else lowerS v₀
        let w := fieldWeight f
        let score :=
          if rgx then
            match regexSearch sq v with
            | some b => if b then w else 0
            | none => if containsSub sq v then w else 0
          else if exact then
            if sq == v then w else 0
          else if containsSub sq v then
            let base := if isPrefixL sq v then w else w * (7/10)
            if containsSub (wordWrap sq) (wordWrap v) then base * (6/5)
            else base
          else 0
        acc + score) 0
    min total 10

/-- The weight table exactly as the specification sentence lists it
    (`title=3.0, url=2.5, username=2.0, tags=2.0, notes=1.0`). -/
def specWeight (f : String) : ℚ :=
  if f == "title" then 3
  else if f == "url" then 5/2
  else if f == "username" then 2
  else if f == "tags" then 2
  else if f == "notes" then 1
  else 1

/-- Contribution of one searched field according to the specification
    sentence: its weight, in full for a match at the start of the field
    value, at 70% for a mid-string match, multiplied by 1.2 for a
    whole-word match. -/
def specContribution (q : Str) (cs : Bool) (e : SEntry) (f : String) : ℚ :=
  match getField e f with
  | none => 0
  | some v₀ =>
    let v := if cs then v₀ else lowerS v₀
    let sq := if cs then q else lowerS q
    if containsSub sq v then
      specWeight f * (if isPrefixL sq v then 1 else 7/10) *
        (if containsSub (wordWrap sq) (wordWrap v) then 6/5 else 1)
    else 0

/-- The specification's relevance score: contributions sum across fields
    and the total is capped at 10.0. -/
def relevanceSpec (q : Str) (fields : List String) (cs : Bool)
    (e : SEntry) : ℚ :=
  min ((fields.map (specContribution q cs e)).sum) 10

/-- The structural filter arguments of `search_entries`. -/
structure SearchFilters where
  groupFilter : Option Str
  dateCreatedAfter : Option Int
  dateCreatedBefore : Option Int
  dateModifiedAfter : Option Int
  dateModifiedBefore : Option Int
  hasUrl : Option Bool
  hasNotes : Option Bool
  hasAttachments : Option Bool
  passwordAgeDays : Option Int
  tags : Option (List Str)
deriving Repr, DecidableEq

/-- `_apply_filters` (password ages in whole days, as `timedelta.days`
    renders them). -/
def applyFilters (now : Int) (fl : SearchFilters) (e : SEntry) : Bool :=
  (match fl.groupFilter with
   | some g => g.isEmpty || containsSub (lowerS g) (lowerS e.group)
   | none => true) &&
  (match fl.dateCreatedAfter with
   | some d => (match e.dateCreated with
                | some c => decide (d ≤ c)
                | none => false)
   | none => true) &&
  (match fl.dateCreatedBefore with
   | some d => (match e.dateCreated with
                | some c => decide (c ≤ d)
                | none => false)
   | none => true) &&
  (match fl.dateModifiedAfter with
   | some d => (match e.dateModified with
                | some c => decide (d ≤ c)
                | none => false)
   | none => true) &&
  (match fl.dateModifiedBefore with
   | some d => (match e.dateModified with
                | some c => decide (c ≤ d)
                | none => false)
   | none => true) &&
  (match fl.hasUrl with
   | some b => b == !(stripS (e.url.getD [])).isEmpty
   | none => true) &&
  (match fl.hasNotes with
   | some b => b == !(stripS (e.notes.getD [])).isEmpty
   | none => true) &&
  (match fl.hasAttachments with
   | some b => b == e.attachments
   | none => true) &&
  (match fl.passwordAgeDays with
   | some days =>
     (match e.passwordChanged with
      | some pc => decide (days ≤ now - pc)
      | none => true)
   | none => true) &&
  (match fl.tags with
   | some req =>
     req.isEmpty ||
       req.all (fun t => (e.tagList.map lowerS).contains (lowerS t))
   | none => true)

/-- The denylist of `validate_search_query`, already lowercased as the
    containment check lowercases each pattern. -/
def dangerousPatterns : List Str :=
  [";".toList, "--".toList, "/*".toList, "*/".toList, "drop ".toList,
   "delete ".toList, "insert ".toList]

/-- `Validators.validate_search_query`: strip, 200-character bound, and
    the case-insensitive pattern denylist. -/
def validateSearchQuery (q : Str) : Except KError Str :=
  let q₁ := stripS q
  if 200 < q₁.length then
    .error (.validationError "Search query cannot exceed 200 characters")
  else if dangerousPatterns.any (fun p => containsSub p (lowerS q₁)) then
    .error (.validationError "Search query contains invalid pattern")
  else .ok q₁

/-- Total order on Python strings (code-point lexicographic), as
    `sorted(key=str)` compares them. -/
def strLe : Str → Str → Bool
  | [], _ => true
  | _ :: _, [] => false
  | a :: as, b :: bs =>
    if a.toNat < b.toNat then true
    else if b.toNat < a.toNat then false
    else strLe as bs

/-- `x.get("date_*", datetime.min)` ordering with `none` as the
    minimum. -/
def dateLe (x y : Option Int) : Bool :=
  match x, y with
  | none, _ => true
  | some _, none => false
  | some a, some b => decide (a ≤ b)

/-- Stable insertion step of Python's `sorted`: the inserted element
    goes before the first element it compares `le` to (ties keep the
    original order, also under `reverse=True`). -/
def insertStable (le : SEntry × ℚ → SEntry × ℚ → Bool) (a : SEntry × ℚ) :
    List (SEntry × ℚ) → List (SEntry × ℚ)
  | [] => [a]
  | b :: bs => if le a b then a :: b :: bs else b :: insertStable le a bs

/-- `_sort_results` (Python's stable sorts: relevance and dates
    descending, titles ascending by lowercased title). -/
def sortResults (results : List (SEntry × ℚ)) (sortBy : String) :
    List (SEntry × ℚ) :=
  if sortBy == "relevance" then
    results.foldr (insertStable (fun a b => decide (b.2 ≤ a.2))) []
  else if sortBy == "title" then
    results.foldr (insertStable (fun a b =>
      strLe (lowerS (a.1.title.getD [])) (lowerS (b.1.title.getD [])))) []
  else if sortBy == "date_created" then
    results.foldr (insertStable (fun a b =>
      dateLe b.1.dateCreated a.1.dateCreated)) []
  else if sortBy == "date_modified" then
    results.foldr (insertStable (fun a b =>
      dateLe b.1.dateModified a.1.dateModified)) []
  else results

/-- `search_entries`: validation (skipped for a falsy query), structural
    filters, relevance scoring (pure filter mode scores 1.0), sorting and
    limit; any inner exception is re-raised as `ValidationError`.  The
    bounded search-history append does not affect the returned value and
    carries no model state. -/
def searchEntries (regexSearch : Str → Str → Option Bool)
    (entries : List SEntry) (q : Str) (fieldsArg : Option (List String))
    (cs exact rgx : Bool) (fl : SearchFilters) (now : Int)
    (sortBy : String) (limit : Option Nat) :
    Except KError (List (SEntry × ℚ)) :=
  match (if q.isEmpty then .ok q else validateSearchQuery q) with
  | .error _ => .error (.validationError "Search failed")
  | .ok q₁ =>
    let fields := fieldsArg.getD ["title", "username", "url", "notes", "tags"]
    let results := entries.foldl (fun acc e =>
      if !(applyFilters now fl e) then acc
      else if !q₁.isEmpty then
        let r := calculateRelevance regexSearch q₁ fields cs exact rgx e
        if 0 < r then acc ++ [(e, r)] else acc
      else acc ++ [(e, 1)]) []
    let sorted := sortResults results sortBy
    .ok (match limit with
         | some n => if 0 < n then sorted.take n else sorted
         | none => sorted)

theorem alookup_aset (k : String) (v : α) (l : List (String × α)) :
    alookup k (aset k v l) = some v := by
  induction l with
  | nil => simp [aset, aerase, alookup]
  | cons p rest ih =>
    by_cases h : p.1 == k
    · simpa [aset, aerase, alookup, h] using ih
    · simpa [aset, aerase, alookup, h] using ih

theorem alookup_aerase (k : String) (l : List (String × α)) :
    alookup k (aerase k l) = none := by
  induction l with
  | nil => simp [aerase, alookup]
  | cons p rest ih =>
    by_cases h : p.1 == k
    · simpa [aerase, alookup, h] using ih
    · simpa [aerase, alookup, h] using ih

/-- Wiping by folding `delete` over the key snapshot empties the map. -/
theorem foldl_aerase_self (l : List (String × α)) :
    ∀ (m : List (String × α)), (∀ p ∈ m, p.1 ∈ l.map Prod.fst) →
      (l.map Prod.fst).foldl (fun acc k => aerase k acc) m = [] := by
  induction l with
  | nil =>
    intro m hm
    cases m with
    | nil => rfl
    | cons p rest => exact absurd (hm p (by simp)) (by simp)
  | cons q rest ih =>
    intro m hm
    simp only [List.map_cons, List.foldl_cons]
    apply ih
    intro p hp
    unfold aerase at hp
    rw [List.mem_filter] at hp
    obtain ⟨hp1, hp2⟩ := hp
    have := hm p hp1
    simp only [List.map_cons, List.mem_cons] at this
    rcases this with h | h
    · rw [h] at hp2; simp at hp2
    · exact h

theorem smemClearAll_eq_nil (m : List (String × String)) :
    smemClearAll m = [] := by
  unfold smemClearAll smemDelete
  exact foldl_aerase_self m m (fun p hp => List.mem_map_of_mem Prod.fst hp)

theorem lockSystem_sessions_nil (s : SecState) : (lockSystem s).sessions = [] := by
  unfold lockSystem
  exact foldl_aerase_self s.sessions s.sessions
    (fun p hp => List.mem_map_of_mem Prod.fst hp)

/-- Failed authentication never touches the session registry nor the
    lock flag. -/
theorem authenticateUser_error_state (cfg : SecConfig) (token : String)
    (now : Nat) (userId password : String) (s : SecState) (e : KError)
    (s₁ : SecState)
    (h : authenticateUser cfg token now userId password s = (.error e, s₁)) :
    s₁.sessions = s.sessions ∧ s₁.isLocked = s.isLocked ∧
    s₁.secureMemory = s.secureMemory := by
  unfold authenticateUser at h
  rcases hrl : checkRateLimit cfg.maxRetries now userId s.authAttempts with ⟨adm, att₁⟩
  rw [hrl] at h
  by_cases hadm : adm = true
  · simp only [hadm, Bool.not_true, Bool.false_eq_true, if_false] at h
    by_cases hlen : password.length < 8
    · simp only [hlen, if_true] at h
      rw [Prod.mk.injEq] at h
      rw [← h.2]
      exact ⟨rfl, rfl, rfl⟩
    · simp only [hlen, if_false] at h
      simp [Prod.ext_iff] at h
  · have hadm' : adm = false := by
      cases adm
      · rfl
      · exact absurd rfl hadm
    simp only [hadm', Bool.not_false, if_true] at h
    rw [Prod.mk.injEq] at h
    rw [← h.2]
    exact ⟨rfl, rfl, rfl⟩

/-- Successful authentication issues exactly the fresh token and installs
    its session. -/
theorem authenticateUser_ok_state (cfg : SecConfig) (token : String)
    (now : Nat) (userId password : String) (s : SecState) (tok : String)
    (s₁ : SecState)
    (h : authenticateUser cfg token now userId password s = (.ok tok, s₁)) :
    tok = token ∧ s₁.sessions = createSession token now userId s.sessions ∧
    s₁.isLocked = s.isLocked := by
  unfold authenticateUser at h
  rcases hrl : checkRateLimit cfg.maxRetries now userId s.authAttempts with ⟨adm, att₁⟩
  rw [hrl] at h
  by_cases hadm : adm = true
  · simp only [hadm, Bool.not_true, Bool.false_eq_true, if_false] at h
    by_cases hlen : password.length < 8
    · simp only [hlen, if_true] at h
      simp [Prod.ext_iff] at h
    · simp only [hlen, if_false] at h
      rw [Prod.mk.injEq] at h
      obtain ⟨h1, h2⟩ := h
      rw [← h2]
      exact ⟨(Except.ok.injEq _ _ ▸ h1).symm, rfl, rfl⟩
  · have hadm' : adm = false := by
      cases adm
      · rfl
      · exact absurd rfl hadm
    simp only [hadm', Bool.not_false, if_true] at h
    simp [Prod.ext_iff] at h

/-- C4 counterexample: with `max_retries = 0` the claim fails.  The user
    has one recorded attempt, and it is older than `attempt_window`
    (age 1000 ≥ 300), so by the claim the next `authenticate_user` call
    proceeds to normal credential evaluation (the ≥-8-character secret
    would be accepted); the code instead raises the rate-limit error,
    because after pruning `0 < 0` is false. -/
theorem c4_counterexample :
    (((alookup "u" ([("u", [0])] : List (String × List Nat))).getD []).filter
        (fun t => 1000 - t < attemptWindow) = []) ∧
    (authenticateUser ⟨3600, 1800, 0⟩ "tok" 1000 "u" "password123"
        ⟨[], [("u", [0])], [], false, 0⟩).1 =
      .error (.authenticationError
        "Too many authentication attempts. Please try again later.") := by
  exact ⟨rfl, rfl⟩

/-- C4 (amended with `max_attempts ≥ 1`): a user with at least
    `max_attempts` recorded attempts younger than `attempt_window` is
    rejected with the rate-limit error before credential evaluation and
    no new timestamp is appended (the recorded list becomes exactly the
    pruned list); and once every recorded attempt is older than the
    window, the call proceeds to normal credential evaluation. -/
theorem c4_rate_limit (cfg : SecConfig) (token : String) (now : Nat)
    (userId password : String) (s : SecState) (hm : 1 ≤ cfg.maxRetries) :
    (cfg.maxRetries ≤ (prunedAttempts now userId s).length →
      authenticateUser cfg token now userId password s =
        (.error (.authenticationError
          "Too many authentication attempts. Please try again later."),
         { s with
            authAttempts := aset userId (prunedAttempts now userId s) s.authAttempts })) ∧
    (prunedAttempts now userId s = [] →
      (password.length < 8 →
        (authenticateUser cfg token now userId password s).1 =
          .error (.authenticationError "Authentication failed")) ∧
      (8 ≤ password.length →
        (authenticateUser cfg token now userId password s).1 = .ok token)) := by
  constructor
  · intro hcount
    unfold prunedAttempts at hcount ⊢
    unfold authenticateUser checkRateLimit
    cases hu : alookup userId s.authAttempts with
    | none =>
      rw [hu] at hcount
      simp only [Option.getD_none, List.filter_nil, List.length_nil] at hcount
      omega
    | some l =>
      rw [hu] at hcount
      simp only [Option.getD_some] at hcount
      have hlt : ¬((l.filter (fun t => now - t < attemptWindow)).length
          < cfg.maxRetries) := by omega
      simp only [hu, Option.getD_some]
      simp [hlt]
  · intro hempty
    unfold prunedAttempts at hempty
    unfold authenticateUser checkRateLimit
    cases hu : alookup userId s.authAttempts with
    | none =>
      simp only [Bool.not_true, Bool.false_eq_true, if_false]
      constructor
      · intro hlen
        simp [hlen]
      · intro hlen
        have : ¬(password.length < 8) := by omega
        simp [this]
    | some l =>
      rw [hu] at hempty
      simp only [Option.getD_some] at hempty
      have hdec : decide ((List.filter (fun t =>
          decide (now - t < attemptWindow)) l).length < cfg.maxRetries) = true := by
        rw [hempty]
        simp only [List.length_nil, decide_eq_true_eq]
        omega
      simp only [hdec, Bool.not_true, Bool.false_eq_true, if_false]
      constructor
      · intro hlen
        simp [hlen]
      · intro hlen
        have : ¬(password.length < 8) := by omega
        simp [this]

/-- C4 witness: with `max_retries = 3`, three fresh attempts rate-limit
    the fourth call, and a fully aged-out history admits a normal
    (successful) credential evaluation. -/
theorem c4_rate_limit_witness :
    (authenticateUser ⟨3600, 1800, 3⟩ "tok" 100 "u" "password123"
        ⟨[], [("u", [100, 100, 100])], [], false, 0⟩).1 =
      .error (.authenticationError
        "Too many authentication attempts. Please try again later.") ∧
    (authenticateUser ⟨3600, 1800, 3⟩ "tok" 1000 "u" "password123"
        ⟨[], [("u", [0])], [], false, 0⟩).1 = .ok "tok" := by
  constructor
  · have h := (c4_rate_limit ⟨3600, 1800, 3⟩ "tok" 100 "u" "password123"
      ⟨[], [("u", [100, 100, 100])], [], false, 0⟩ (by decide)).1 (by decide)
    rw [h]
  · exact ((c4_rate_limit ⟨3600, 1800, 3⟩ "tok" 1000 "u" "password123"
      ⟨[], [("u", [0])], [], false, 0⟩ (by decide)).2 (by decide)).2 (by decide)

/-- C5 counterexample: with the system globally locked, a ≥-8-character
    secret for a non-rate-limited user still yields a token, but the
    immediate `validate_session` raises `SecurityError` instead of
    returning true, so the claim as stated fails. -/
theorem c5_counterexample :
    8 ≤ ("password123" : String).length ∧
    (checkRateLimit 3 0 "u" ([] : List (String × List Nat))).1 = true ∧
    (authenticateUser ⟨3600, 1800, 3⟩ "tok" 0 "u" "password123"
        ⟨[], [], [], true, 0⟩).1 = .ok "tok" ∧
    (validateSession ⟨3600, 1800, 3⟩ 0 "tok"
        (authenticateUser ⟨3600, 1800, 3⟩ "tok" 0 "u" "password123"
          ⟨[], [], [], true, 0⟩).2).1 =
      .error (.securityError "System is locked") := by
  exact ⟨by decide, rfl, rfl, rfl⟩

/-- C5 (amended with "system not globally locked"): a ≥-8-character
    secret of a non-rate-limited user yields a token that an immediate
    `validate_session` accepts; a shorter secret raises
    `AuthenticationError` and leaves the session registry untouched. -/
theorem c5_auth_then_validate (cfg : SecConfig) (token : String) (now : Nat)
    (userId password : String) (s : SecState)
    (hadm : (checkRateLimit cfg.maxRetries now userId s.authAttempts).1 = true) :
    (8 ≤ password.length → s.isLocked = false →
      ∃ s₁, authenticateUser cfg token now userId password s = (.ok token, s₁) ∧
        (validateSession cfg now token s₁).1 = .ok true) ∧
    (password.length < 8 →
      (authenticateUser cfg token now userId password s).1 =
        .error (.authenticationError "Authentication failed") ∧
      (authenticateUser cfg token now userId password s).2.sessions =
        s.sessions) := by
  constructor
  · intro hlen hnl
    have hlen' : ¬(password.length < 8) := by omega
    rcases hrl : checkRateLimit cfg.maxRetries now userId s.authAttempts
      with ⟨adm, att₁⟩
    rw [hrl] at hadm
    simp only at hadm
    refine ⟨{ s with
                sessions := createSession token now userId s.sessions,
                authAttempts := aerase userId (recordAuthAttempt now userId att₁) },
      ?_, ?_⟩
    · unfold authenticateUser
      rw [hrl]
      simp only [hadm, Bool.not_true, Bool.false_eq_true, if_false, hlen',
        if_false]
    · unfold validateSession
      simp only [hnl, Bool.false_eq_true, if_false]
      unfold sessionValidate createSession
      rw [alookup_aset]
      simp
  · intro hlen
    rcases hrl : checkRateLimit cfg.maxRetries now userId s.authAttempts
      with ⟨adm, att₁⟩
    rw [hrl] at hadm
    simp only at hadm
    unfold authenticateUser
    rw [hrl, hadm]
    simp only [Bool.not_true, Bool.false_eq_true, if_false, if_pos hlen]
    exact ⟨trivial, trivial⟩

/-- C5 witness: a fresh unlocked state, secret of length equal to 11,
    plus the rejection of a 3-character secret. -/
theorem c5_auth_then_validate_witness :
    (∃ s₁, authenticateUser ⟨3600, 1800, 3⟩ "tok" 0 "u" "password123"
        ⟨[], [], [], false, 0⟩ = (.ok "tok", s₁) ∧
      (validateSession ⟨3600, 1800, 3⟩ 0 "tok" s₁).1 = .ok true) ∧
    (authenticateUser ⟨3600, 1800, 3⟩ "tok" 0 "u" "abc"
        ⟨[], [], [], false, 0⟩).1 =
      .error (.authenticationError "Authentication failed") := by
  constructor
  · exact (c5_auth_then_validate ⟨3600, 1800, 3⟩ "tok" 0 "u" "password123"
      ⟨[], [], [], false, 0⟩ rfl).1 (by decide) rfl
  · exact ((c5_auth_then_validate ⟨3600, 1800, 3⟩ "tok" 0 "u" "abc"
      ⟨[], [], [], false, 0⟩ rfl).2 (by decide)).1

/-- C6: after `lock_system` the lock flag is set, `SecureMemory.retrieve`
    returns `None` for every key, the session registry is empty, and
    every subsequent `validate_session` raises `SecurityError`. -/
theorem c6_lock_system (cfg : SecConfig) (s : SecState) (k token : String)
    (now : Nat) :
    (lockSystem s).isLocked = true ∧
    smemRetrieve k (lockSystem s).secureMemory = none ∧
    (lockSystem s).sessions = [] ∧
    validateSession cfg now token (lockSystem s) =
      (.error (.securityError "System is locked"), lockSystem s) := by
  refine ⟨rfl, ?_, lockSystem_sessions_nil s, ?_⟩
  · have h : (lockSystem s).secureMemory = smemClearAll s.secureMemory := rfl
    rw [h, smemClearAll_eq_nil]
    rfl
  · unfold validateSession
    simp only [lockSystem, if_true]

/-- C10: with the system locked, a failure of the authentication inside
    `unlock_system` (short secret or rate-limited) propagates unchanged,
    the lock flag stays set and no session is created; the flag is
    cleared only when a token was issued, and that token's session then
    exists. -/
theorem c10_unlock_failure_keeps_lock (cfg : SecConfig) (token : String)
    (now : Nat) (userId password : String) (s : SecState)
    (hl : s.isLocked = true) :
    (∀ e s₁, authenticateUser cfg token now userId password s = (.error e, s₁) →
      unlockSystem cfg token now userId password s = (.error e, s₁) ∧
      s₁.isLocked = true ∧ s₁.sessions = s.sessions) ∧
    (∀ tok s₁, unlockSystem cfg token now userId password s = (.ok tok, s₁) →
      tok = token ∧ s₁.isLocked = false ∧
      alookup tok s₁.sessions = some ⟨userId, now, now, 0⟩) := by
  constructor
  · intro e s₁ h
    have hstate := authenticateUser_error_state cfg token now userId password
      s e s₁ h
    refine ⟨?_, hl ▸ hstate.2.1, hstate.1⟩
    unfold unlockSystem
    simp only [hl, Bool.not_true, Bool.false_eq_true, if_false, h]
  · intro tok s₁ h
    unfold unlockSystem at h
    simp only [hl, Bool.not_true, Bool.false_eq_true, if_false] at h
    rcases ha : authenticateUser cfg token now userId password s with ⟨r, s₂⟩
    rw [ha] at h
    cases r with
    | error e => simp [Prod.ext_iff] at h
    | ok tok₂ =>
      rw [Prod.mk.injEq] at h
      obtain ⟨h1, h2⟩ := h
      have hok := authenticateUser_ok_state cfg token now userId password
        s tok₂ s₂ ha
      have htok : tok = tok₂ := (Except.ok.injEq _ _ ▸ h1).symm
      refine ⟨htok.trans hok.1, ?_, ?_⟩
      · rw [← h2]
      · rw [← h2]
        simp only []
        rw [hok.2.1, htok.trans hok.1]
        unfold createSession
        exact alookup_aset _ _ _

theorem removeArt_append (n : String) (d₁ d₂ : List Artifact) :
    removeArt n (d₁ ++ d₂) = removeArt n d₁ ++ removeArt n d₂ := by
  unfold removeArt
  exact List.filter_append _ _

theorem removeArt_removeArt (n : String) (d : List Artifact) :
    removeArt n (removeArt n d) = removeArt n d := by
  unfold removeArt
  rw [List.filter_filter]
  simp [Bool.and_self]

theorem findArt_eq_none_iff (n : String) (d : List Artifact) :
    findArt n d = none ↔ ∀ a ∈ d, ¬(a.name = n) := by
  unfold findArt
  rw [List.find?_eq_none]
  constructor
  · intro h a ha
    have := h a ha
    simpa using this
  · intro h a ha
    simpa using h a ha

theorem removeArt_of_not_found (n : String) (d : List Artifact)
    (h : findArt n d = none) : removeArt n d = d := by
  unfold removeArt
  rw [List.filter_eq_self]
  intro a ha
  have := (findArt_eq_none_iff n d).mp h a ha
  simpa using this

theorem findArt_eq_some (n : String) (d : List Artifact) (a : Artifact)
    (h : findArt n d = some a) : a ∈ d ∧ a.name = n := by
  unfold findArt at h
  refine ⟨List.mem_of_find?_eq_some h, ?_⟩
  have := List.find?_some h
  simpa using this

theorem mem_removeArt (n : String) (d : List Artifact) (x : Artifact)
    (h : x ∈ removeArt n d) : x ∈ d ∧ ¬(x.name = n) := by
  unfold removeArt at h
  rw [List.mem_filter] at h
  refine ⟨h.1, ?_⟩
  have := h.2
  simpa using this

theorem mem_putArt (a : Artifact) (d : List Artifact) (x : Artifact)
    (h : x ∈ putArt a d) : x = a ∨ (x ∈ d ∧ ¬(x.name = a.name)) := by
  unfold putArt at h
  rw [List.mem_append] at h
  rcases h with h | h
  · exact Or.inr (mem_removeArt _ _ _ h)
  · simp only [List.mem_singleton] at h
    exact Or.inl h

theorem findArt_of_mem (n : String) (d : List Artifact) (a : Artifact)
    (ha : a ∈ d) (hn : a.name = n) : findArt n d ≠ none := by
  intro h
  exact (findArt_eq_none_iff n d).mp h a ha hn

/-- C7: `create_backup` raises `BackupError` and writes nothing when the
    source file is absent; on success the recorded checksum is the hash
    of the pre-copy source content; under requested verification, a
    checksum mismatch of the written artifact deletes it, writes no
    metadata sidecar, and raises `BackupError` (directory unchanged). -/
theorem c7_create_backup (hash : List Nat → Nat) (comp : List Nat → List Nat)
    (decomp : List Nat → Option (List Nat)) (deleteOk : String → Bool)
    (maxB : Nat) (stem : String) (t : Nat) (reason : String)
    (compress verify : Bool) (dir : List Artifact) :
    (createBackup hash comp decomp deleteOk maxB stem t reason compress verify
        none dir =
      (.error (.backupError "Failed to create backup: Database file not found"),
       dir)) ∧
    (∀ src m dir₁,
      createBackup hash comp decomp deleteOk maxB stem t reason compress verify
          (some src) dir = (.ok m, dir₁) → m.checksum = hash src) ∧
    (∀ src, verify = true →
      verifyBackup hash decomp (if compress then comp src else src)
        (some (hash src)) compress = false →
      findArt (mkBackupName stem t reason compress) dir = none →
      createBackup hash comp decomp deleteOk maxB stem t reason compress verify
          (some src) dir =
        (.error
          (.backupError "Failed to create backup: Backup verification failed"),
         dir)) := by
  refine ⟨rfl, ?_, ?_⟩
  · intro src m dir₁ h
    simp only [createBackup] at h
    split at h <;> split at h <;>
      first
        | exact Except.noConfusion
            (congrArg Prod.fst h : Except.error _ = Except.ok m)
        | (have h1 : Except.ok _ = Except.ok m := congrArg Prod.fst h
           injection h1 with hm
           rw [← hm])
  · intro src hv hverify hfind
    simp only [createBackup, hv, hverify, Bool.not_false, Bool.and_self,
      if_true]
    rw [Prod.mk.injEq]
    refine ⟨rfl, ?_⟩
    unfold putArt
    rw [removeArt_append, removeArt_removeArt,
      removeArt_of_not_found _ _ hfind]
    simp [removeArt]

/-- C7 witness: a missing source, a successful compressed backup whose
    recorded checksum is the source hash, and a failing decompressor
    that forces the verification mismatch. -/
theorem c7_create_backup_witness :
    (createBackup (fun l => l.sum) id some (fun _ => true) 5 "db" 7 "m"
        true true none [] =
      (.error (.backupError "Failed to create backup: Database file not found"),
       [])) ∧
    ((⟨"db_7_m.kdbx.gz", 7, "m", 2, 2, true, 3, true⟩ : BackupMeta).checksum =
      (fun (l : List Nat) => l.sum) [1, 2]) ∧
    (createBackup (fun l => l.sum) id (fun _ => none) (fun _ => true) 5 "db" 7
        "m" true true (some [1, 2]) [] =
      (.error (.backupError "Failed to create backup: Backup verification failed"),
       [])) := by
  refine ⟨(c7_create_backup (fun l => l.sum) id some (fun _ => true) 5 "db" 7
    "m" true true []).1, ?_, ?_⟩
  · exact (c7_create_backup (fun l => l.sum) id some (fun _ => true) 5 "db" 7
      "m" true true []).2.1 [1, 2] _ _ (by rfl)
  · exact (c7_create_backup (fun l => l.sum) id (fun _ => none)
      (fun _ => true) 5 "db" 7 "m" true true []).2.2 [1, 2] rfl (by rfl)
      (by rfl)

theorem gzName_append_gz (s : String) : gzName (s ++ ".gz") = true := by
  unfold gzName
  have hdata : (s ++ ".gz").toList = s.toList ++ ".gz".toList :=
    String.data_append s ".gz"
  rw [hdata]
  have hlen : (s.toList ++ ".gz".toList).length = s.toList.length + 3 := by
    simp [List.length_append]
  rw [hlen]
  have h3 : s.toList.length + 3 - 3 = s.toList.length := by omega
  rw [h3]
  have := List.drop_left s.toList ".gz".toList
  rw [this]
  simp

theorem gzName_mkBackupName_gz (stem : String) (t : Nat) (reason : String) :
    gzName (mkBackupName stem t reason true) = true := by
  have h : mkBackupName stem t reason true =
      (stem ++ "_" ++ toString t ++ "_" ++ reason ++ ".kdbx") ++ ".gz" := by
    unfold mkBackupName
    simp [String.append_assoc]
  rw [h]
  exact gzName_append_gz _

theorem deleteBackup_snd_subset (dk : String → Bool) (n : String)
    (d : List Artifact) (x : Artifact) (h : x ∈ (deleteBackup dk n d).2) :
    x ∈ d := by
  unfold deleteBackup at h
  cases hf : findArt n d with
  | none => rw [hf] at h; exact h
  | some a =>
    rw [hf] at h
    by_cases hdk : dk n = true
    · rw [if_pos hdk] at h
      exact (mem_removeArt _ _ _ h).1
    · rw [if_neg hdk] at h
      exact h

theorem cleanupStep_snd (dk : String → Bool) (acc : List String × List Artifact)
    (b : Artifact) : (cleanupStep dk acc b).2 = (deleteBackup dk b.name acc.2).2 := by
  unfold cleanupStep
  rcases h : deleteBackup dk b.name acc.2 with ⟨r, d⟩
  cases r <;> simp

theorem foldl_cleanupStep_subset (dk : String → Bool) (l : List Artifact) :
    ∀ (acc : List String × List Artifact) (x : Artifact),
      x ∈ (l.foldl (cleanupStep dk) acc).2 → x ∈ acc.2 := by
  induction l with
  | nil => intro acc x h; exact h
  | cons b rest ih =>
    intro acc x h
    have h₁ := ih (cleanupStep dk acc b) x h
    rw [cleanupStep_snd] at h₁
    exact deleteBackup_snd_subset dk b.name acc.2 x h₁

theorem cleanup_snd_subset (dk : String → Bool) (maxB : Nat)
    (dir : List Artifact) (x : Artifact)
    (h : x ∈ (cleanupOldBackups dk maxB dir).2) : x ∈ dir := by
  unfold cleanupOldBackups at h
  exact foldl_cleanupStep_subset dk _ ([], dir) x h

/-- Every failing path of the restore try-block leaves a pre-existing
    live file at its pre-call bytes (directly, or rolled back from the
    aside copy). -/
theorem restoreCore_error_live (hash : List Nat → Nat)
    (decomp : List Nat → Option (List Nat)) (fault : Option (List Nat))
    (name : String) (vbr : Bool) (meta : Option BackupMeta) (s : BStore)
    (c : List Nat) (hl : s.live = some c) (e : KError) (s₁ : BStore)
    (h : restoreCore hash decomp fault name vbr meta s = (.error e, s₁)) :
    s₁.live = some c := by
  cases hfind : findArt name s.dir with
  | none =>
    simp only [restoreCore, hfind] at h
    rw [Prod.mk.injEq] at h
    rw [← h.2, hl]
  | some art =>
    cases hdec : (if gzName name = true then decomp art.content
        else some art.content) with
    | none =>
      simp only [restoreCore, hfind, hdec] at h
      rw [Prod.mk.injEq] at h
      rw [← h.2, hl]
    | some bytes =>
      cases hv : vbr with
      | false =>
        simp only [restoreCore, hfind, hdec, hv, Bool.false_eq_true,
          if_false] at h
        exact Except.noConfusion
          (congrArg Prod.fst h : Except.ok _ = Except.error e)
      | true =>
        cases hm : meta with
        | none =>
          simp only [restoreCore, hfind, hdec, hv, hm, if_true] at h
          exact Except.noConfusion
            (congrArg Prod.fst h : Except.ok _ = Except.error e)
        | some m =>
          by_cases hck : (hash (fault.getD bytes) == m.checksum) = true
          · simp only [restoreCore, hfind, hdec, hv, hm, if_true, hck] at h
            exact Except.noConfusion
              (congrArg Prod.fst h : Except.ok _ = Except.error e)
          · simp only [restoreCore, hfind, hdec, hv, hm, if_true] at h
            rw [if_neg hck] at h
            simp only [hl] at h
            rw [Prod.mk.injEq] at h
            rw [← h.2]

/-- With a faithful restore write, the try-block either leaves the live
    file unchanged or writes exactly the (decompressed) content of the
    named artifact. -/
theorem restoreCore_fault_none (hash : List Nat → Nat)
    (decomp : List Nat → Option (List Nat)) (name : String) (vbr : Bool)
    (meta : Option BackupMeta) (s : BStore) :
    (restoreCore hash decomp none name vbr meta s).2.live = s.live ∨
    ∃ art b, findArt name s.dir = some art ∧
      (if gzName name = true then decomp art.content
       else some art.content) = some b ∧
      (restoreCore hash decomp none name vbr meta s).2.live = some b := by
  cases hfind : findArt name s.dir with
  | none =>
    simp only [restoreCore, hfind]
    exact Or.inl trivial
  | some art =>
    cases hdec : (if gzName name = true then decomp art.content
        else some art.content) with
    | none =>
      simp only [restoreCore, hfind, hdec]
      exact Or.inl trivial
    | some bytes =>
      cases vbr with
      | false =>
        simp only [restoreCore, hfind, hdec, Bool.false_eq_true, if_false,
          Option.getD_none]
        exact Or.inr ⟨art, bytes, rfl, hdec, rfl⟩
      | true =>
        cases meta with
        | none =>
          simp only [restoreCore, hfind, hdec, Option.getD_none]
          exact Or.inr ⟨art, bytes, rfl, hdec, rfl⟩
        | some m =>
          by_cases hck : (hash bytes == m.checksum) = true
          · simp only [restoreCore, hfind, hdec, Option.getD_none, hck,
              if_true]
            exact Or.inr ⟨art, bytes, rfl, hdec, rfl⟩
          · have hck2 : (hash bytes == m.checksum) = false := by
              cases h : (hash bytes == m.checksum)
              · rfl
              · exact absurd h hck
            simp only [restoreCore, hfind, hdec, Option.getD_none, hck2,
              Bool.false_eq_true, if_false]
            cases hl : s.live with
            | some orig =>
              simp only [hl]
              exact Or.inl rfl
            | none =>
              simp only [hl]
              exact Or.inr ⟨art, bytes, rfl, hdec, rfl⟩


/-- The directory a successful pre-restore `create_backup` leaves
    behind: the fresh compressed artifact with its metadata sidecar,
    after retention cleanup. -/
theorem createBackup_pre_restore_ok_snd (hash : List Nat → Nat)
    (comp : List Nat → List Nat) (decomp : List Nat → Option (List Nat))
    (deleteOk : String → Bool) (maxB : Nat) (stem : String) (t : Nat)
    (src : List Nat) (dir : List Artifact) (m : BackupMeta)
    (dir₁ : List Artifact)
    (h : createBackup hash comp decomp deleteOk maxB stem t "pre_restore"
      true true (some src) dir = (.ok m, dir₁)) :
    dir₁ = (cleanupOldBackups deleteOk maxB
      (putArt ⟨mkBackupName stem t "pre_restore" true, comp src, t,
        some ⟨mkBackupName stem t "pre_restore" true, t, "pre_restore",
          src.length, (comp src).length, true, hash src, true⟩⟩
        (putArt ⟨mkBackupName stem t "pre_restore" true, comp src, t, none⟩
          dir))).2 := by
  simp only [createBackup] at h
  split at h
  · split at h
    · exact Except.noConfusion
        (congrArg Prod.fst h : Except.error _ = Except.ok m)
    · exact (congrArg Prod.snd h : _ = dir₁).symm
  · rename_i hx
    exact absurd trivial hx

/-- C1: for every `restore_backup` call the live store ends the
    operation either byte-identical to the (decompressed) content of the
    named backup or unchanged: (1) with faithful gzip and a faithful
    restore write the final live file is the pre-call one or exactly the
    artifact's restored bytes; (2) whenever `BackupError` is raised, a
    pre-existing live file still holds its pre-call bytes (rollback from
    the aside copy); (3) with `verify_before_restore=True`, a backup
    artifact whose content fails its recorded checksum raises
    `BackupError` before any state is touched. -/
theorem c1_restore_safety (hash : List Nat → Nat) (comp : List Nat → List Nat)
    (decomp : List Nat → Option (List Nat)) (deleteOk : String → Bool)
    (maxB : Nat) (stem : String) (t : Nat) (name : String) (vbr cprb : Bool)
    (s : BStore) (hnames : (s.dir.map (fun a => a.name)).Nodup) :
    ((∀ bs, decomp (comp bs) = some bs) →
      (restoreBackup hash comp decomp deleteOk maxB stem t none name vbr cprb
        s).2.live = s.live ∨
      ∃ art b, findArt name s.dir = some art ∧
        (if gzName name = true then decomp art.content
         else some art.content) = some b ∧
        (restoreBackup hash comp decomp deleteOk maxB stem t none name vbr
          cprb s).2.live = some b) ∧
    (∀ fault c, s.live = some c → ∀ e s₁,
      restoreBackup hash comp decomp deleteOk maxB stem t fault name vbr cprb
        s = (.error e, s₁) → s₁.live = some c) ∧
    (∀ fault art m, vbr = true → findArt name s.dir = some art →
      art.meta = some m →
      verifyBackup hash decomp art.content (some m.checksum) (gzName name)
        = false →
      restoreBackup hash comp decomp deleteOk maxB stem t fault name vbr cprb
        s = (.error (.backupError
          "Failed to restore backup: Backup verification failed before restore"),
        s)) := by
  refine ⟨?_, ?_, ?_⟩
  · -- (1) faithful gzip, faithful write
    intro hcd
    cases hfind : findArt name s.dir with
    | none => exact Or.inl (by simp only [restoreBackup, hfind])
    | some art =>
      by_cases hpre : (vbr && !verifyBackup hash decomp art.content
          (Option.map (fun m => m.checksum) art.meta) (gzName name)) = true
      · exact Or.inl (by simp only [restoreBackup, hfind, hpre, if_true])
      · have hpre2 : (vbr && !verifyBackup hash decomp art.content
            (Option.map (fun m => m.checksum) art.meta) (gzName name))
            = false := by
          cases hx : (vbr && !verifyBackup hash decomp art.content
              (Option.map (fun m => m.checksum) art.meta) (gzName name))
          · rfl
          · exact absurd hx hpre
        by_cases hcprb : (cprb && s.live.isSome) = true
        · rcases hcr : createBackup hash comp decomp deleteOk maxB stem t
            "pre_restore" true true s.live s.dir with ⟨r, dir₁⟩
          cases hl : s.live with
          | none =>
            rw [hl] at hcprb
            simp at hcprb
          | some c =>
            cases r with
            | error er =>
              refine Or.inl ?_
              simp only [restoreBackup, hfind, hpre2, Bool.false_eq_true,
                if_false, hcprb, if_true, hcr]
              exact hl
            | ok meta₂ =>
              have hred : restoreBackup hash comp decomp deleteOk maxB stem t
                  none name vbr cprb s =
                  restoreCore hash decomp none name vbr art.meta
                    ⟨s.live, dir₁⟩ := by
                simp only [restoreBackup, hfind, hpre2, Bool.false_eq_true,
                  if_false, hcprb, if_true, hcr]
              rw [hred]
              rcases restoreCore_fault_none hash decomp name vbr art.meta
                ⟨s.live, dir₁⟩ with hL | ⟨art₂, b, hfind₂, hdec₂, hlive⟩
              · exact Or.inl (hL.trans hl)
              · rw [hl] at hcr
                have hdir₁ := createBackup_pre_restore_ok_snd hash comp decomp
                  deleteOk maxB stem t c s.dir meta₂ dir₁ hcr
                obtain ⟨hmem₂, hname₂⟩ := findArt_eq_some _ _ _ hfind₂
                rw [hdir₁] at hmem₂
                have hmem₃ := cleanup_snd_subset _ _ _ _ hmem₂
                rcases mem_putArt _ _ _ hmem₃ with hA₂ | ⟨hmem₄, hne₂⟩
                · -- the artifact restored is the fresh pre-restore backup
                  have hn : name = mkBackupName stem t "pre_restore" true := by
                    rw [← hname₂, hA₂]
                  have hgz : gzName name = true := by
                    rw [hn]
                    exact gzName_mkBackupName_gz _ _ _
                  rw [hgz] at hdec₂
                  simp only [if_true] at hdec₂
                  have hcont : art₂.content = comp c := by rw [hA₂]
                  rw [hcont, hcd c] at hdec₂
                  injection hdec₂ with hcb
                  refine Or.inl ?_
                  rw [hlive, ← hcb]
                · rcases mem_putArt _ _ _ hmem₄ with hA₁ | ⟨hmem₅, hne₁⟩
                  · exact absurd (by rw [hA₁]) hne₂
                  · have hart := findArt_eq_some _ _ _ hfind
                    have heq : art₂ = art :=
                      List.inj_on_of_nodup_map hnames hmem₅ hart.1
                        (by rw [hname₂, hart.2])
                    rw [heq] at hdec₂
                    exact Or.inr ⟨art, b, rfl, hdec₂, hlive⟩
        · have hcprb2 : (cprb && s.live.isSome) = false := by
            cases hx : (cprb && s.live.isSome)
            · rfl
            · exact absurd hx hcprb
          have hred : restoreBackup hash comp decomp deleteOk maxB stem t
              none name vbr cprb s =
              restoreCore hash decomp none name vbr art.meta s := by
            simp only [restoreBackup, hfind, hpre2, Bool.false_eq_true,
              if_false, hcprb2]
          rw [hred]
          rcases restoreCore_fault_none hash decomp name vbr art.meta s with
            hL | ⟨art₂, b, hfind₂, hdec₂, hlive⟩
          · exact Or.inl hL
          · rw [hfind] at hfind₂
            have heq : art₂ = art := by
              injection hfind₂.symm
            rw [heq] at hdec₂
            exact Or.inr ⟨art, b, rfl, hdec₂, hlive⟩
  · -- (2) any BackupError leaves a pre-existing live file unchanged
    intro fault c hl e s₁ h
    cases hfind : findArt name s.dir with
    | none =>
      simp only [restoreBackup, hfind] at h
      have h2 : s.live = s₁.live := congrArg (fun p => p.2.live) h
      rw [← h2]
      exact hl
    | some art =>
      by_cases hpre : (vbr && !verifyBackup hash decomp art.content
          (Option.map (fun m => m.checksum) art.meta) (gzName name)) = true
      · simp only [restoreBackup, hfind, hpre, if_true] at h
        have h2 : s.live = s₁.live := congrArg (fun p => p.2.live) h
        rw [← h2]
        exact hl
      · have hpre2 : (vbr && !verifyBackup hash decomp art.content
            (Option.map (fun m => m.checksum) art.meta) (gzName name))
            = false := by
          cases hx : (vbr && !verifyBackup hash decomp art.content
              (Option.map (fun m => m.checksum) art.meta) (gzName name))
          · rfl
          · exact absurd hx hpre
        by_cases hcprb : (cprb && s.live.isSome) = true
        · simp only [restoreBackup, hfind, hpre2, Bool.false_eq_true,
            if_false, hcprb, if_true] at h
          rcases hcr : createBackup hash comp decomp deleteOk maxB stem t
            "pre_restore" true true s.live s.dir with ⟨r, dir₁⟩
          rw [hcr] at h
          cases r with
          | error er =>
            have h2 : s.live = s₁.live := congrArg (fun p => p.2.live) h
            rw [← h2]
            exact hl
          | ok meta₂ =>
            have h3 : restoreCore hash decomp fault name vbr art.meta
                ⟨s.live, dir₁⟩ = (.error e, s₁) := h
            exact restoreCore_error_live hash decomp fault name vbr art.meta
              ⟨s.live, dir₁⟩ c hl e s₁ h3
        · have hcprb2 : (cprb && s.live.isSome) = false := by
            cases hx : (cprb && s.live.isSome)
            · rfl
            · exact absurd hx hcprb
          simp only [restoreBackup, hfind, hpre2, Bool.false_eq_true,
            if_false, hcprb2] at h
          exact restoreCore_error_live hash decomp fault name vbr art.meta
            s c hl e s₁ h
  · -- (3) verified tampered backup aborts before touching anything
    intro fault art m hvbr hfind hmeta hver
    simp [restoreBackup, hfind, hmeta, hvbr, hver]

/-- C1 witness: a valid backup restored with a faithful write (clause 1),
    an unfaithful restore write rolled back from the aside copy
    (clause 2 at a concrete fault), and a tampered artifact rejected by
    pre-verification with no state change (clause 3). -/
theorem c1_restore_safety_witness :
    ((restoreBackup (fun l => l.sum) id some (fun _ => true) 5 "db" 9 none
        "b.kdbx" true false sampleStore).2.live = sampleStore.live ∨
      ∃ art b, findArt "b.kdbx" sampleStore.dir = some art ∧
        (if gzName "b.kdbx" = true then some art.content
         else some art.content) = some b ∧
        (restoreBackup (fun l => l.sum) id some (fun _ => true) 5 "db" 9 none
          "b.kdbx" true false sampleStore).2.live = some b) ∧
    sampleStore.live = some [5] ∧
    restoreBackup (fun l => l.sum) id some (fun _ => true) 5 "db" 9
        (some [9, 9]) "b.kdbx" true false sampleStoreTampered =
      (.error (.backupError
        "Failed to restore backup: Backup verification failed before restore"),
       sampleStoreTampered) := by
  have H1 := c1_restore_safety (fun l => l.sum) id some (fun _ => true) 5 "db"
    9 "b.kdbx" true false sampleStore (by simp [sampleStore])
  have H2 := c1_restore_safety (fun l => l.sum) id some (fun _ => true) 5 "db"
    9 "b.kdbx" true false sampleStoreTampered (by simp [sampleStoreTampered])
  refine ⟨H1.1 (fun bs => rfl), ?_, ?_⟩
  · exact H1.2.1 (some [7, 7]) [5] rfl
      (.backupError
        "Failed to restore backup: Restore failed: Restored database checksum mismatch")
      sampleStore (by rfl)
  · exact H2.2.2 (some [9, 9])
      ⟨"b.kdbx", [9, 9], 0, some ⟨"b.kdbx", 0, "m", 2, 2, false, 3, true⟩⟩
      ⟨"b.kdbx", 0, "m", 2, 2, false, 3, true⟩ rfl (by rfl) rfl (by rfl)

/-- C2: every entry/group mutation primitive called while the store
    state is locked (`is_locked` true or no open handle) raises
    `DatabaseLockedError` and leaves the handler state — handle, lock
    flag, and on-disk store — unchanged. -/
theorem c2_mutation_while_locked {DB ED GD : Type} (codec : Codec DB ED GD)
    (env : BackupEnv) (autoSave : Bool) (now t : Nat) (g eid gid pid : Nat)
    (ed : ED) (gd : GD) (permanent : Bool) (s : HState DB)
    (h : s.isLocked = true ∨ s.database = none) :
    createEntry codec env autoSave now t g ed s =
      (.error .databaseLockedError, s) ∧
    updateEntry codec env autoSave now t eid ed s =
      (.error .databaseLockedError, s) ∧
    deleteEntry codec env autoSave now t eid permanent s =
      (.error .databaseLockedError, s) ∧
    moveEntry codec env autoSave now t eid gid s =
      (.error .databaseLockedError, s) ∧
    createGroup codec env autoSave now t pid gd s =
      (.error .databaseLockedError, s) ∧
    updateGroup codec env autoSave now t gid gd s =
      (.error .databaseLockedError, s) ∧
    deleteGroup codec env autoSave now t gid s =
      (.error .databaseLockedError, s) ∧
    moveGroup codec env autoSave now t gid pid s =
      (.error .databaseLockedError, s) := by
  have hb : (s.isLocked || s.database.isNone) = true := by
    rcases h with h | h
    · simp [h]
    · simp [h]
  refine ⟨?_, ?_, ?_, ?_, ?_, ?_, ?_, ?_⟩ <;>
    simp only [createEntry, updateEntry, deleteEntry, moveEntry, createGroup,
      updateGroup, deleteGroup, moveGroup, hb, if_true]

/-- C2 witness: a locked handler with an open handle, and an unlocked
    handler with no handle, both rejected by all eight primitives. -/
theorem c2_mutation_while_locked_witness :
    @createEntry Nat Nat Nat
      ⟨fun db _ _ => (db, 0), fun db _ _ => db, fun db _ => db, fun _ => 0,
       fun db _ _ => db, fun db _ _ => (db, 0), fun db _ _ => db,
       fun db _ => db, fun db _ _ => db, fun _ => []⟩
      ⟨fun l => l.sum, id, some, fun _ => true, 5, "db"⟩ true 0 0 0 7
      ⟨some 1, true, none, ⟨some [5], []⟩⟩ =
      (.error .databaseLockedError, ⟨some 1, true, none, ⟨some [5], []⟩⟩) ∧
    @moveGroup Nat Nat Nat
      ⟨fun db _ _ => (db, 0), fun db _ _ => db, fun db _ => db, fun _ => 0,
       fun db _ _ => db, fun db _ _ => (db, 0), fun db _ _ => db,
       fun db _ => db, fun db _ _ => db, fun _ => []⟩
      ⟨fun l => l.sum, id, some, fun _ => true, 5, "db"⟩ true 0 0 0 1
      ⟨none, false, none, ⟨some [5], []⟩⟩ =
      (.error .databaseLockedError, ⟨none, false, none, ⟨some [5], []⟩⟩) := by
  constructor
  · exact (c2_mutation_while_locked
      ⟨fun db _ _ => (db, 0), fun db _ _ => db, fun db _ => db, fun _ => 0,
       fun db _ _ => db, fun db _ _ => (db, 0), fun db _ _ => db,
       fun db _ => db, fun db _ _ => db, fun _ => []⟩
      ⟨fun l => l.sum, id, some, fun _ => true, 5, "db"⟩ true 0 0 0 0 0 0 7 7
      true ⟨some 1, true, none, ⟨some [5], []⟩⟩ (Or.inl rfl)).1
  · exact (c2_mutation_while_locked
      ⟨fun db _ _ => (db, 0), fun db _ _ => db, fun db _ => db, fun _ => 0,
       fun db _ _ => db, fun db _ _ => (db, 0), fun db _ _ => db,
       fun db _ => db, fun db _ _ => db, fun _ => []⟩
      ⟨fun l => l.sum, id, some, fun _ => true, 5, "db"⟩ true 0 0 0 0 0 1 7 7
      true ⟨none, false, none, ⟨some [5], []⟩⟩ (Or.inr rfl)).2.2.2.2.2.2.2

/-- C3: `save_database` called while the store is not unlocked raises a
    plain `DatabaseError` wrapping the locked message — not
    `DatabaseLockedError` — because the locked check sits inside the
    try-block whose blanket `except Exception` re-wraps it. -/
theorem c3_save_while_locked_wrapped {DB ED GD : Type}
    (codec : Codec DB ED GD) (env : BackupEnv) (now t : Nat)
    (reason : String) (s : HState DB)
    (h : s.isLocked = true ∨ s.database = none) :
    saveDatabase codec env now t reason s =
      (.error (.databaseError "Failed to save database: Database is locked"),
       s) ∧
    ∀ s₁ : HState DB,
      saveDatabase codec env now t reason s ≠ (.error .databaseLockedError, s₁) := by
  have hb : (s.isLocked || s.database.isNone) = true := by
    rcases h with h | h
    · simp [h]
    · simp [h]
  have heq : saveDatabase codec env now t reason s =
      (.error (.databaseError "Failed to save database: Database is locked"),
       s) := by
    simp only [saveDatabase, hb, if_true]
  refine ⟨heq, ?_⟩
  intro s₁ hne
  rw [heq] at hne
  have := congrArg Prod.fst hne
  simp at this

/-- C3 witness: a locked handler sees `DatabaseError`, not
    `DatabaseLockedError`, from `save_database("manual")`. -/
theorem c3_save_while_locked_wrapped_witness :
    @saveDatabase Nat Nat Nat
      ⟨fun db _ _ => (db, 0), fun db _ _ => db, fun db _ => db, fun _ => 0,
       fun db _ _ => db, fun db _ _ => (db, 0), fun db _ _ => db,
       fun db _ => db, fun db _ _ => db, fun _ => []⟩
      ⟨fun l => l.sum, id, some, fun _ => true, 5, "db"⟩ 0 0 "manual"
      ⟨some 1, true, none, ⟨some [5], []⟩⟩ =
      (.error (.databaseError "Failed to save database: Database is locked"),
       ⟨some 1, true, none, ⟨some [5], []⟩⟩) := by
  exact (c3_save_while_locked_wrapped
    ⟨fun db _ _ => (db, 0), fun db _ _ => db, fun db _ => db, fun _ => 0,
     fun db _ _ => db, fun db _ _ => (db, 0), fun db _ _ => db,
     fun db _ => db, fun db _ _ => db, fun _ => []⟩
    ⟨fun l => l.sum, id, some, fun _ => true, 5, "db"⟩ 0 0 "manual"
    ⟨some 1, true, none, ⟨some [5], []⟩⟩ (Or.inl rfl)).1

theorem insertByCtime_perm (a : Artifact) (l : List Artifact) :
    (insertByCtime a l).Perm (a :: l) := by
  induction l with
  | nil => exact List.Perm.refl _
  | cons b bs ih =>
    unfold insertByCtime
    by_cases h : b.ctime ≤ a.ctime
    · rw [if_pos h]
    · rw [if_neg h]
      exact (List.Perm.cons b ih).trans (List.Perm.swap a b bs)

theorem listBackupsByDate_perm (d : List Artifact) :
    (listBackupsByDate d).Perm d := by
  induction d with
  | nil => exact List.Perm.refl _
  | cons a rest ih =>
    unfold listBackupsByDate at ih ⊢
    simp only [List.foldr_cons]
    exact (insertByCtime_perm a _).trans (List.Perm.cons a ih)

theorem insertByCtime_of_lt (a : Artifact) (l : List Artifact)
    (h : ∀ b ∈ l, a.ctime < b.ctime) : insertByCtime a l = l ++ [a] := by
  induction l with
  | nil => rfl
  | cons b bs ih =>
    unfold insertByCtime
    rw [if_neg (Nat.not_le.mpr (h b (List.mem_cons_self b bs)))]
    rw [ih (fun x hx => h x (List.mem_cons_of_mem b hx))]
    rfl

theorem listBackupsByDate_of_ascending (l : List Artifact)
    (h : l.Pairwise (fun x y => x.ctime < y.ctime)) :
    listBackupsByDate l = l.reverse := by
  induction l with
  | nil => rfl
  | cons a rest ih =>
    rw [List.pairwise_cons] at h
    unfold listBackupsByDate at ih ⊢
    simp only [List.foldr_cons]
    rw [ih h.2, insertByCtime_of_lt, List.reverse_cons]
    intro b hb
    exact h.1 b (List.mem_reverse.mp hb)

theorem find?_filter_of_imp (p q : α → Bool) (l : List α)
    (h : ∀ a, q a = false → p a = false) :
    (l.filter q).find? p = l.find? p := by
  induction l with
  | nil => rfl
  | cons a rest ih =>
    rw [List.filter_cons]
    by_cases hq : q a = true
    · rw [if_pos hq]
      by_cases hp : p a = true
      · simp [List.find?_cons, hp]
      · simp [List.find?_cons, hp, ih]
    · have hq' : q a = false := by
        cases hqq : q a
        · rfl
        · exact absurd hqq hq
      rw [if_neg hq]
      have hp := h a hq'
      simp [List.find?_cons, hp, ih]

theorem findArt_removeArt_ne (n n₁ : String) (d : List Artifact)
    (h : ¬(n₁ = n)) : findArt n (removeArt n₁ d) = findArt n d := by
  unfold findArt removeArt
  apply find?_filter_of_imp
  intro a ha
  have ha' : a.name = n₁ := by
    cases hx : (a.name == n₁)
    · rw [hx] at ha
      exact absurd ha (by simp)
    · simpa using hx
  cases hpn : (a.name == n)
  · rfl
  · have : a.name = n := by simpa using hpn
    rw [ha'] at this
    exact absurd this h

theorem findArt_cons_self (a : Artifact) (rest : List Artifact) :
    findArt a.name (a :: rest) = some a := by
  unfold findArt
  simp [List.find?_cons]

theorem findArt_isSome_of_present (n : String) (d : List Artifact)
    (h : ∃ x ∈ d, x.name = n) : ∃ y, findArt n d = some y := by
  obtain ⟨x, hx, hxn⟩ := h
  have hs : (d.find? (fun a => a.name == n)).isSome := by
    rw [List.find?_isSome]
    exact ⟨x, hx, by simp [hxn]⟩
  unfold findArt
  exact Option.isSome_iff_exists.mp hs

/-- Closed form of the `cleanup_old_backups` loop: starting from
    directory `d` and already-collected names `acc`, processing the
    artifacts `l` (present in `d`, with distinct names) collects exactly
    the names `deleteOk` admits and filters exactly those out of `d`. -/
theorem foldl_cleanupStep_char (dk : String → Bool) (l : List Artifact) :
    ∀ (d : List Artifact) (acc : List String),
      (∀ a ∈ l, ∃ x ∈ d, x.name = a.name) →
      ((l.map (fun a => a.name)).Nodup) →
      l.foldl (cleanupStep dk) (acc, d) =
        (acc ++ (l.filter (fun a => dk a.name)).map (fun a => a.name),
         d.filter (fun x =>
           !(((l.filter (fun a => dk a.name)).map (fun a => a.name)).contains
             x.name))) := by
  induction l with
  | nil =>
    intro d acc _ _
    simp
  | cons b rest ih =>
    intro d acc hpres hnodup
    rw [List.foldl_cons]
    obtain ⟨y, hy⟩ := findArt_isSome_of_present b.name d
      (hpres b (List.mem_cons_self b rest))
    rw [List.map_cons, List.nodup_cons] at hnodup
    have hbnotin := hnodup.1
    have hnodup' := hnodup.2
    by_cases hdk : dk b.name = true
    · have hstep : cleanupStep dk (acc, d) b =
          (acc ++ [b.name], removeArt b.name d) := by
        unfold cleanupStep deleteBackup
        rw [hy, if_pos hdk]
      rw [hstep]
      have hpres' : ∀ a ∈ rest, ∃ x ∈ removeArt b.name d, x.name = a.name := by
        intro a ha
        obtain ⟨x, hx, hxn⟩ := hpres a (List.mem_cons_of_mem b ha)
        refine ⟨x, ?_, hxn⟩
        unfold removeArt
        rw [List.mem_filter]
        refine ⟨hx, ?_⟩
        have hne : ¬(a.name = b.name) := by
          intro hc
          exact hbnotin (hc ▸ List.mem_map_of_mem (fun a => a.name) ha)
        cases hxb : (x.name == b.name)
        · rfl
        · have : x.name = b.name := by simpa using hxb
          rw [hxn] at this
          exact absurd this hne
      rw [ih (removeArt b.name d) (acc ++ [b.name]) hpres' hnodup']
      rw [Prod.mk.injEq]
      constructor
      · simp [List.filter_cons, hdk, List.append_assoc]
      · unfold removeArt
        rw [List.filter_filter]
        rw [List.filter_cons, if_pos hdk]
        apply List.filter_congr
        intro x hx
        rw [List.map_cons, List.contains_cons]
        cases hxb : (x.name == b.name) <;>
          cases hxr : ((rest.filter (fun a => dk a.name)).map
            (fun a => a.name)).contains x.name <;>
          simp [hxb, hxr]
    · have hdk' : dk b.name = false := by
        cases hx : dk b.name
        · rfl
        · exact absurd hx hdk
      have hstep : cleanupStep dk (acc, d) b = (acc, d) := by
        unfold cleanupStep deleteBackup
        rw [hy, if_neg (by simp [hdk'])]
      rw [hstep]
      rw [ih d acc (fun a ha => hpres a (List.mem_cons_of_mem b ha)) hnodup']
      rw [List.filter_cons, if_neg (by simp [hdk'])]

/-- `cleanup_old_backups` under distinct filenames: the returned list is
    exactly the names of the beyond-`max_backups` tail of the
    newest-first listing (the oldest backups) whose unlink succeeds, and
    exactly those are removed from the directory. -/
theorem cleanupOldBackups_char (dk : String → Bool) (maxB : Nat)
    (dir : List Artifact) (hnames : (dir.map (fun a => a.name)).Nodup) :
    cleanupOldBackups dk maxB dir =
      ((((listBackupsByDate dir).drop maxB).filter (fun a => dk a.name)).map
        (fun a => a.name),
       dir.filter (fun x =>
         !(((((listBackupsByDate dir).drop maxB).filter
            (fun a => dk a.name)).map (fun a => a.name)).contains x.name))) := by
  unfold cleanupOldBackups
  apply foldl_cleanupStep_char
  · intro a ha
    have h₁ : a ∈ listBackupsByDate dir := List.drop_subset _ _ ha
    exact ⟨a, (listBackupsByDate_perm dir).mem_iff.mp h₁, rfl⟩
  · have hperm := (listBackupsByDate_perm dir).map (fun a => a.name)
    have hnd : ((listBackupsByDate dir).map (fun a => a.name)).Nodup :=
      hperm.nodup_iff.mpr hnames
    rw [List.map_drop]
    exact hnd.sublist (List.drop_sublist _ _)

/-- Closed form of the sequential-creation scenario: after `n` creates at
    times `0, …, n-1` the directory holds exactly the newest
    `min n maxB` backups, in creation order. -/
theorem createSeq_closed (hash : List Nat → Nat) (comp : List Nat → List Nat)
    (decomp : List Nat → Option (List Nat)) (maxB : Nat)
    (stem reason : String) (compress verify : Bool) (src : List Nat)
    (hcd : ∀ bs, decomp (comp bs) = some bs) :
    ∀ n, (∀ i, i ≤ n → ∀ j, j ≤ n →
      mkBackupName stem i reason compress = mkBackupName stem j reason compress
      → i = j) →
    createSeq hash comp decomp maxB stem reason compress verify src n =
      (List.range' (n - maxB) (min n maxB)).map
        (backupArtifact hash comp stem reason compress verify src) := by
  intro n
  induction n with
  | zero =>
    intro _
    simp [createSeq]
  | succ n ih =>
    intro hinj
    have ihn := ih (fun i hi j hj h =>
      hinj i (Nat.le_succ_of_le hi) j (Nat.le_succ_of_le hj) h)
    have hsum : (n - maxB) + min n maxB = n := by omega
    have hfind : findArt (mkBackupName stem n reason compress)
        ((List.range' (n - maxB) (min n maxB)).map
          (backupArtifact hash comp stem reason compress verify src)) = none := by
      rw [findArt_eq_none_iff]
      intro a ha
      rw [List.mem_map] at ha
      obtain ⟨i, hi, rfl⟩ := ha
      rw [List.mem_range'_1] at hi
      intro hcontra
      have : i = n := hinj i (by omega) n (by omega) hcontra
      omega
    have hver : verifyBackup hash decomp (if compress then comp src else src)
        (some (hash src)) compress = true := by
      cases compress
      · simp [verifyBackup]
      · simp [verifyBackup, hcd src]
    have hput : putArt
        ⟨mkBackupName stem n reason compress,
         if compress then comp src else src, n,
         some ⟨mkBackupName stem n reason compress, n, reason, src.length,
           (if compress then comp src else src).length, compress, hash src,
           verify⟩⟩
        (putArt ⟨mkBackupName stem n reason compress,
          if compress then comp src else src, n, none⟩
          ((List.range' (n - maxB) (min n maxB)).map
            (backupArtifact hash comp stem reason compress verify src))) =
        ((List.range' (n - maxB) (min n maxB)).map
          (backupArtifact hash comp stem reason compress verify src)) ++
        [backupArtifact hash comp stem reason compress verify src n] := by
      unfold putArt
      rw [removeArt_of_not_found _ _ hfind]
      rw [removeArt_append, removeArt_of_not_found _ _ hfind]
      simp [removeArt, backupArtifact]
    have hstep : createSeq hash comp decomp maxB stem reason compress verify
        src (n + 1) =
        (cleanupOldBackups (fun _ => true) maxB
          (((List.range' (n - maxB) (min n maxB)).map
            (backupArtifact hash comp stem reason compress verify src)) ++
           [backupArtifact hash comp stem reason compress verify src n])).2 := by
      show (createBackup hash comp decomp (fun _ => true) maxB stem n reason
        compress verify (some src)
        (createSeq hash comp decomp maxB stem reason compress verify src n)).2
        = _
      rw [ihn]
      simp only [createBackup, hver, Bool.not_true, Bool.and_false,
        Bool.false_eq_true, if_false, hput]
    rw [hstep]
    have hidx : ((List.range' (n - maxB) (min n maxB)).map
        (backupArtifact hash comp stem reason compress verify src)) ++
        [backupArtifact hash comp stem reason compress verify src n] =
        (List.range' (n - maxB) (min n maxB + 1)).map
          (backupArtifact hash comp stem reason compress verify src) := by
      rw [List.range'_1_concat, List.map_append, hsum]
      rfl
    rw [hidx]
    have hnodup : (((List.range' (n - maxB) (min n maxB + 1)).map
        (backupArtifact hash comp stem reason compress verify src)).map
        (fun a => a.name)).Nodup := by
      rw [List.map_map]
      have hrng : (List.range' (n - maxB) (min n maxB + 1)).Nodup :=
        (List.pairwise_lt_range' _ _).imp (fun h => Nat.ne_of_lt h)
      refine hrng.map_on (fun i hi j hj h => ?_)
      rw [List.mem_range'_1] at hi hj
      exact hinj i (by omega) j (by omega) h
    have hasc : ((List.range' (n - maxB) (min n maxB + 1)).map
        (backupArtifact hash comp stem reason compress verify src)).Pairwise
        (fun x y => x.ctime < y.ctime) := by
      rw [List.pairwise_map]
      exact List.pairwise_lt_range' _ _
    rw [cleanupOldBackups_char _ _ _ hnodup]
    rw [listBackupsByDate_of_ascending _ hasc]
    rcases Nat.lt_or_ge n maxB with hn | hn
    · have hdrop : ((((List.range' (n - maxB) (min n maxB + 1)).map
          (backupArtifact hash comp stem reason compress verify src)).reverse).drop
          maxB) = [] := by
        apply List.drop_eq_nil_of_le
        rw [List.length_reverse, List.length_map, List.length_range']
        omega
      rw [hdrop]
      simp only [List.filter_nil, List.map_nil, List.contains_nil,
        Bool.not_false, List.filter_true]
      have h1 : n + 1 - maxB = n - maxB := by omega
      have h2 : min (n + 1) maxB = min n maxB + 1 := by omega
      rw [h1, h2]
    · have hmin : min n maxB = maxB := by omega
      rw [hmin]
      have hcons : List.range' (n - maxB) (maxB + 1) =
          (n - maxB) :: List.range' (n - maxB + 1) maxB := rfl
      rw [hcons, List.map_cons]
      have hrevdrop : (((backupArtifact hash comp stem reason compress verify
          src (n - maxB)) :: (List.range' (n - maxB + 1) maxB).map
            (backupArtifact hash comp stem reason compress verify src)).reverse).drop
          maxB =
          [backupArtifact hash comp stem reason compress verify src
            (n - maxB)] := by
        rw [List.reverse_cons]
        apply List.drop_left'
        rw [List.length_reverse, List.length_map, List.length_range']
      rw [hrevdrop]
      have hfilterhead : ∀ x : Artifact,
          ([backupArtifact hash comp stem reason compress verify src
            (n - maxB)].filter (fun a => (fun _ => true) a.name)).map
            (fun a => a.name) =
          [mkBackupName stem (n - maxB) reason compress] := by
        intro _
        rfl
      rw [hfilterhead ⟨"", [], 0, none⟩]
      have hfilter : ((backupArtifact hash comp stem reason compress verify
          src (n - maxB)) :: (List.range' (n - maxB + 1) maxB).map
            (backupArtifact hash comp stem reason compress verify src)).filter
          (fun x =>
            !([mkBackupName stem (n - maxB) reason compress].contains x.name))
          = (List.range' (n - maxB + 1) maxB).map
            (backupArtifact hash comp stem reason compress verify src) := by
        rw [List.filter_cons, if_neg (by simp [backupArtifact])]
        apply List.filter_eq_self.mpr
        intro a ha
        rw [List.mem_map] at ha
        obtain ⟨i, hi, rfl⟩ := ha
        rw [List.mem_range'_1] at hi
        simp only [backupArtifact, List.contains_cons, List.contains_nil,
          Bool.or_false, Bool.not_eq_true']
        cases hx : (mkBackupName stem i reason compress ==
            mkBackupName stem (n - maxB) reason compress)
        · rfl
        · have heq : mkBackupName stem i reason compress =
              mkBackupName stem (n - maxB) reason compress := by simpa using hx
          have := hinj i (by omega) (n - maxB) (by omega) heq
          omega
      rw [hfilter]
      have h1 : n + 1 - maxB = n - maxB + 1 := by omega
      have h2 : min (n + 1) maxB = maxB := by omega
      rw [h1, h2]

/-- C10 witness: a locked system, a 3-character secret: the failure
    propagates and the lock flag stays set; with an 11-character secret
    the unlock succeeds and the token's session exists. -/
theorem c10_unlock_failure_keeps_lock_witness :
    (unlockSystem ⟨3600, 1800, 3⟩ "tok" 5 "u" "abc" ⟨[], [], [], true, 0⟩ =
      (.error (.authenticationError "Authentication failed"),
       ⟨[], [("u", [5])], [], true, 0⟩)) ∧
    ((⟨[], [("u", [5])], [], true, 0⟩ : SecState).isLocked = true) ∧
    (∀ s₁, unlockSystem ⟨3600, 1800, 3⟩ "tok" 5 "u" "password123"
        ⟨[], [], [], true, 0⟩ = (.ok "tok", s₁) → s₁.isLocked = false) := by
  have h := (c10_unlock_failure_keeps_lock ⟨3600, 1800, 3⟩ "tok" 5 "u" "abc"
    ⟨[], [], [], true, 0⟩ rfl).1 (.authenticationError "Authentication failed")
    ⟨[], [("u", [5])], [], true, 0⟩ rfl
  refine ⟨h.1, h.2.1, ?_⟩
  intro s₁ hs
  exact ((c10_unlock_failure_keeps_lock ⟨3600, 1800, 3⟩ "tok" 5 "u"
    "password123" ⟨[], [], [], true, 0⟩ rfl).2 "tok" s₁ hs).2.1

/-- C8: after `max_backups + k` successive creates (`k ≥ 1`, distinct
    timestamps giving distinct filenames), exactly `max_backups` backups
    remain — the newest ones, the `k` oldest by creation time having been
    deleted; and `cleanup_old_backups` on a directory of distinct
    filenames deletes the beyond-`max_backups` tail of the newest-first
    listing (the oldest), skipping individual unlink failures without
    propagating them, and returns exactly the names it actually
    deleted. -/
theorem c8_retention_and_cleanup (hash : List Nat → Nat)
    (comp : List Nat → List Nat) (decomp : List Nat → Option (List Nat))
    (maxB : Nat) (stem reason : String) (compress verify : Bool)
    (src : List Nat) (k : Nat) (dk : String → Bool) (dir : List Artifact)
    (hcd : ∀ bs, decomp (comp bs) = some bs) (_hk : 1 ≤ k)
    (hinj : ∀ i, i ≤ maxB + k → ∀ j, j ≤ maxB + k →
      mkBackupName stem i reason compress = mkBackupName stem j reason compress
      → i = j)
    (hnames : (dir.map (fun a => a.name)).Nodup) :
    (createSeq hash comp decomp maxB stem reason compress verify src
        (maxB + k) =
      (List.range' k maxB).map
        (backupArtifact hash comp stem reason compress verify src) ∧
     (createSeq hash comp decomp maxB stem reason compress verify src
        (maxB + k)).length = maxB) ∧
    cleanupOldBackups dk maxB dir =
      ((((listBackupsByDate dir).drop maxB).filter (fun a => dk a.name)).map
        (fun a => a.name),
       dir.filter (fun x =>
         !(((((listBackupsByDate dir).drop maxB).filter
            (fun a => dk a.name)).map (fun a => a.name)).contains x.name))) := by
  have h1 := createSeq_closed hash comp decomp maxB stem reason compress
    verify src hcd (maxB + k) hinj
  have e1 : maxB + k - maxB = k := by omega
  have e2 : min (maxB + k) maxB = maxB := by omega
  rw [e1, e2] at h1
  refine ⟨⟨h1, ?_⟩, cleanupOldBackups_char dk maxB dir hnames⟩
  rw [h1, List.length_map, List.length_range']

/-- C8 witness: with `max_backups = 2`, five creates leave exactly the
    two newest backups (times 3 and 4); cleanup of a four-backup
    directory where unlinking `a.kdbx` fails deletes only `b.kdbx`,
    keeping the two newest plus the undeletable `a.kdbx`. -/
theorem c8_retention_and_cleanup_witness :
    (createSeq (fun l => l.sum) id some 2 "db" "auto" false false [9] 5 =
      [backupArtifact (fun l => l.sum) id "db" "auto" false false [9] 3,
       backupArtifact (fun l => l.sum) id "db" "auto" false false [9] 4] ∧
     (createSeq (fun l => l.sum) id some 2 "db" "auto" false false [9]
        5).length = 2) ∧
    cleanupOldBackups (fun n => !(n == "a.kdbx")) 2
        [⟨"a.kdbx", [1], 0, none⟩, ⟨"b.kdbx", [2], 1, none⟩,
         ⟨"c.kdbx", [3], 2, none⟩, ⟨"d.kdbx", [4], 3, none⟩] =
      (["b.kdbx"],
       [⟨"a.kdbx", [1], 0, none⟩, ⟨"c.kdbx", [3], 2, none⟩,
        ⟨"d.kdbx", [4], 3, none⟩]) := by
  have h := c8_retention_and_cleanup (fun l => l.sum) id some 2 "db" "auto"
    false false [9] 3 (fun n => !(n == "a.kdbx"))
    [⟨"a.kdbx", [1], 0, none⟩, ⟨"b.kdbx", [2], 1, none⟩,
     ⟨"c.kdbx", [3], 2, none⟩, ⟨"d.kdbx", [4], 3, none⟩]
    (fun bs => rfl) (by decide) (by decide) (by decide)
  exact ⟨⟨h.1.1.trans (by rfl), h.1.2⟩, h.2.trans (by rfl)⟩

/-- The spec's weight table and the code's weight table agree on every
    field name. -/
theorem specWeight_eq_fieldWeight (f : String) : specWeight f = fieldWeight f := by
  by_cases h1 : f = "title"
  · subst h1; rfl
  by_cases h2 : f = "username"
  · subst h2; rfl
  by_cases h3 : f = "url"
  · subst h3; rfl
  by_cases h4 : f = "notes"
  · subst h4; rfl
  by_cases h5 : f = "tags"
  · subst h5; rfl
  simp [specWeight, fieldWeight, h1, h2, h3, h4, h5]

/-- A fold whose body adds a per-element amount is the sum of those
    amounts. -/
theorem foldl_add_eq_sum (g : String → ℚ) (body : ℚ → String → ℚ)
    (hb : ∀ a f, body a f = a + g f) :
    ∀ (l : List String) (a : ℚ), l.foldl body a = a + (l.map g).sum := by
  intro l
  induction l with
  | nil =>
    intro a
    simp
  | cons f rest ih =>
    intro a
    rw [List.foldl_cons, hb, ih, List.map_cons, List.sum_cons]
    ring

/-- Stable insertion permutes: inserting `a` yields `a :: l` up to
    order. -/
theorem insertStable_perm (le : SEntry × ℚ → SEntry × ℚ → Bool)
    (a : SEntry × ℚ) : ∀ l, (insertStable le a l).Perm (a :: l) := by
  intro l
  induction l with
  | nil => simp [insertStable]
  | cons b bs ih =>
    rw [insertStable]
    split
    · exact List.Perm.refl _
    · exact (ih.cons b).trans (List.Perm.swap a b bs)

/-- The insertion-sort fold permutes its input. -/
theorem foldr_insertStable_perm (le : SEntry × ℚ → SEntry × ℚ → Bool) :
    ∀ l : List (SEntry × ℚ), (l.foldr (insertStable le) []).Perm l := by
  intro l
  induction l with
  | nil => simp
  | cons a as ih =>
    rw [List.foldr_cons]
    exact (insertStable_perm le a _).trans (ih.cons a)

/-- `_sort_results` only reorders: membership is preserved. -/
theorem sortResults_mem (results : List (SEntry × ℚ)) (sortBy : String)
    (p : SEntry × ℚ) (hp : p ∈ sortResults results sortBy) : p ∈ results := by
  unfold sortResults at hp
  split at hp
  · exact (foldr_insertStable_perm _ results).mem_iff.mp hp
  split at hp
  · exact (foldr_insertStable_perm _ results).mem_iff.mp hp
  split at hp
  · exact (foldr_insertStable_perm _ results).mem_iff.mp hp
  split at hp
  · exact (foldr_insertStable_perm _ results).mem_iff.mp hp
  exact hp

/-- Pure-filter-mode accumulation invariant: every collected pair scores
    1 and passed the structural filters. -/
theorem filterScore_foldl_invariant (now : Int) (fl : SearchFilters) :
    ∀ (entries : List SEntry) (acc : List (SEntry × ℚ)),
      (∀ p ∈ acc, p.2 = 1 ∧ applyFilters now fl p.1 = true) →
      ∀ p ∈ entries.foldl (fun acc e =>
          if !(applyFilters now fl e) then acc
          else acc ++ [(e, (1 : ℚ))]) acc,
        p.2 = 1 ∧ applyFilters now fl p.1 = true := by
  intro entries
  induction entries with
  | nil =>
    intro acc hacc p hp
    exact hacc p hp
  | cons e es ih =>
    intro acc hacc p hp
    rw [List.foldl_cons] at hp
    cases he : applyFilters now fl e with
    | false =>
      rw [he] at hp
      simp only [Bool.not_false, if_true] at hp
      exact ih acc hacc p hp
    | true =>
      rw [he] at hp
      simp only [Bool.not_true, Bool.false_eq_true, if_false] at hp
      refine ih _ ?_ p hp
      intro p₁ hp₁
      rcases List.mem_append.mp hp₁ with h | h
      · exact hacc p₁ h
      · rw [List.mem_singleton.mp h]
        exact ⟨rfl, he⟩

/-- In substring mode (no exact, no regex) with a non-empty query, the
    code's relevance score is exactly the specification's formula: per
    matching field the spec weight, full for a prefix match, 70% for a
    mid-string match, times 1.2 for a whole-word match, summed and capped
    at 10. -/
theorem calculateRelevance_eq_spec (regexSearch : Str → Str → Option Bool)
    (q : Str) (fields : List String) (cs : Bool) (e : SEntry)
    (hq : q ≠ []) :
    calculateRelevance regexSearch q fields cs false false e =
      relevanceSpec q fields cs e := by
  have hq' : q.isEmpty = false := by
    cases q with
    | nil => exact absurd rfl hq
    | cons c cs => rfl
  have hb : ∀ (a : ℚ) (f : String),
      (fun (acc : ℚ) (f : String) =>
        match getField e f with
        | none => acc
        | some v₀ =>
          let v := if cs then v₀ else lowerS v₀
          let w := fieldWeight f
          let score :=
            if containsSub (if cs then q else lowerS q) v then
              let base := if isPrefixL (if cs then q else lowerS q) v then w
                else w * (7 / 10)
              if containsSub (wordWrap (if cs then q else lowerS q))
                  (wordWrap v) then base * (6 / 5)
              else base
            else 0
          acc + score) a f = a + specContribution q cs e f := by
    intro a f
    cases hgf : getField e f with
    | none => simp [specContribution, hgf]
    | some v₀ =>
      simp only [specContribution, hgf]
      rw [specWeight_eq_fieldWeight]
      cases hc : containsSub (if cs then q else lowerS q)
          (if cs then v₀ else lowerS v₀) with
      | false =>
        simp only [hc, Bool.false_eq_true, if_false]
      | true =>
        simp only [hc, if_true]
        cases hp : isPrefixL (if cs then q else lowerS q)
            (if cs then v₀ else lowerS v₀) with
        | false =>
          simp only [hp, Bool.false_eq_true, if_false]
          cases hw : containsSub (wordWrap (if cs then q else lowerS q))
              (wordWrap (if cs then v₀ else lowerS v₀)) with
          | false =>
            simp only [hw, Bool.false_eq_true, if_false]
            try ring
          | true =>
            simp only [hw, if_true]
            try ring
        | true =>
          simp only [hp, if_true]
          cases hw : containsSub (wordWrap (if cs then q else lowerS q))
              (wordWrap (if cs then v₀ else lowerS v₀)) with
          | false =>
            simp only [hw, Bool.false_eq_true, if_false]
            try ring
          | true =>
            simp only [hw, if_true]
            try ring
  unfold calculateRelevance
  rw [hq']
  rw [if_neg (by simp : ¬ (false = true))]
  show min (fields.foldl (fun (acc : ℚ) (f : String) =>
      match getField e f with
      | none => acc
      | some v₀ =>
        let v := if cs then v₀ else lowerS v₀
        let w := fieldWeight f
        let score :=
          if containsSub (if cs then q else lowerS q) v then
            let base := if isPrefixL (if cs then q else lowerS q) v then w
              else w * (7 / 10)
            if containsSub (wordWrap (if cs then q else lowerS q))
                (wordWrap v) then base * (6 / 5)
            else base
          else 0
        acc + score) 0) 10 = relevanceSpec q fields cs e
  rw [foldl_add_eq_sum (specContribution q cs e) _ hb fields 0, zero_add]
  rfl

/-- `search_entries` with an empty query is pure filter mode: every
    returned pair carries relevance score exactly 1.0 and passed the
    structural filters. -/
theorem searchEntries_emptyQuery (rs : Str → Str → Option Bool)
    (entries : List SEntry) (fieldsArg : Option (List String))
    (cs ex rg : Bool) (fl : SearchFilters) (now : Int) (sortBy : String)
    (limit : Option Nat) (res : List (SEntry × ℚ))
    (hres : searchEntries rs entries [] fieldsArg cs ex rg fl now
      sortBy limit = .ok res) :
    ∀ p ∈ res, p.2 = 1 ∧ applyFilters now fl p.1 = true := by
  unfold searchEntries at hres
  simp only [List.isEmpty_nil, eq_self_iff_true, if_true, Bool.not_true,
    Bool.false_eq_true, if_false] at hres
  injection hres with h
  intro p hp
  rw [← h] at hp
  have hp₁ : p ∈ sortResults (entries.foldl (fun acc e =>
      if !(applyFilters now fl e) then acc
      else acc ++ [(e, (1 : ℚ))]) []) sortBy := by
    cases limit with
    | none => exact hp
    | some n =>
      simp only [] at hp
      by_cases hn : 0 < n
      · rw [if_pos hn] at hp
        exact List.mem_of_mem_take hp
      · rw [if_neg hn] at hp
        exact hp
  have hp₂ := sortResults_mem _ _ _ hp₁
  refine filterScore_foldl_invariant now fl entries [] ?_ p hp₂
  intro p₁ hp₁
  exact absurd hp₁ (List.not_mem_nil p₁)

/-- C9: for a non-empty query in substring mode, the relevance score of
    any entry equals the specification's formula — each matching searched
    field contributes its fixed weight (title 3.0, url 2.5, username 2.0,
    tags 2.0, notes 1.0), in full for a value starting with the query, at
    70% for a mid-string match, times 1.2 for a whole-word match, summed
    across fields and capped at 10.0 — and with an empty query every
    entry returned by `search_entries` passed the structural filters and
    scores exactly 1.0. -/
theorem c9_relevance_scoring (regexSearch rs : Str → Str → Option Bool)
    (q : Str) (fields : List String) (cs : Bool) (e : SEntry)
    (entries : List SEntry) (fieldsArg : Option (List String))
    (cs₂ ex rg : Bool) (fl : SearchFilters) (now : Int) (sortBy : String)
    (limit : Option Nat) (res : List (SEntry × ℚ))
    (hq : q ≠ [])
    (hres : searchEntries rs entries [] fieldsArg cs₂ ex rg fl now
      sortBy limit = .ok res) :
    calculateRelevance regexSearch q fields cs false false e =
      relevanceSpec q fields cs e ∧
    ∀ p ∈ res, p.2 = 1 ∧ applyFilters now fl p.1 = true :=
  ⟨calculateRelevance_eq_spec regexSearch q fields cs e hq,
   searchEntries_emptyQuery rs entries fieldsArg cs₂ ex rg fl now sortBy
     limit res hres⟩

/-- C9 witness: the query "github" against a title "GitHub Account"
    scores by the spec formula, and an empty-query search over that
    single entry with no filters returns it with score exactly 1. -/
theorem c9_relevance_scoring_witness :
    (calculateRelevance (fun _ _ => none) "github".toList ["title"] false
        false false
        ⟨some "GitHub Account".toList, none, none, none, none, [], none,
         none, false, none, []⟩ =
      relevanceSpec "github".toList ["title"] false
        ⟨some "GitHub Account".toList, none, none, none, none, [], none,
         none, false, none, []⟩) ∧
    ∀ p ∈ [(⟨some "GitHub Account".toList, none, none, none, none, [],
              none, none, false, none, []⟩, (1 : ℚ))],
      (p : SEntry × ℚ).2 = 1 ∧
      applyFilters 0 ⟨none, none, none, none, none, none, none, none,
        none, none⟩ p.1 = true :=
  c9_relevance_scoring (fun _ _ => none) (fun _ _ => none)
    "github".toList ["title"] false
    ⟨some "GitHub Account".toList, none, none, none, none, [], none,
     none, false, none, []⟩
    [⟨some "GitHub Account".toList, none, none, none, none, [], none,
      none, false, none, []⟩]
    none false false false
    ⟨none, none, none, none, none, none, none, none, none, none⟩
    0 "relevance" none
    [(⟨some "GitHub Account".toList, none, none, none, none, [], none,
       none, false, none, []⟩, (1 : ℚ))]
    (by decide) rfl

end KeePassMCP

